import Mathlib

set_option maxRecDepth 1000000

/-!
Shallow embedding of the stratified-sampling / balanced-trial-construction
core of the `perception_action_MST` repository, together with proofs
settling the frozen claims about it.

The embedding covers:
* `src/code/src/functions.py`: signal derivation (`derive_eco_signal`,
  `derive_organic_label`), item classification (`prepare_items`, cell
  assignment), pool construction (`build_pools`), the balanced sampler
  (`sample_row`), two-item trial construction (`make_trial`,
  `build_trials_flat`);
* `src/code/03a_build_stimulus_set.py`: the single-item stimulus-set script;
* `src/code/experiment/experiment_run_functions.py`:
  `build_blocks_from_items`.

Randomness: every call the Python code makes into a `numpy` generator
(`rng.permutation`, `rng.shuffle`, `DataFrame.sample`) is modelled by an
explicit permutation parameter (a `List Nat` of indices).  Theorems that
need genuine shuffles carry the hypothesis that the supplied index lists
are permutations of `List.range n`.  Pandas data frames are modelled as
`List`s of records, dictionaries as association lists, and the mutable
name-usage counter as threaded state.
-/

namespace PerceptionMST

/-- Applying a list of indices to a list: `applyPerm idxs l` is the list
`[l[idxs[0]], l[idxs[1]], ...]` (out-of-range indices yield nothing, which
never happens for genuine permutations).  This models both
`rng.permutation` applied to a list and `df.sample(frac=1)` /
`df.iloc`-style reindexing. -/
def applyPerm {α : Type} (idxs : List Nat) (l : List α) : List α :=
  idxs.filterMap l.get?

/-- A product record as it appears in the sampling pools built by
`build_pools` (columns `product_name, category, eco_score, eco_signal,
organic_label, is_danish_like, is_lang_da`). -/
structure Item where
  product_name : String
  category : String
  eco_score : String
  eco_signal : Nat
  organic_label : Nat
  is_danish_like : Bool
  is_lang_da : Bool
  deriving DecidableEq, Repr

/-- A classified item: a pool item together with its `cell` column, as in
the output of `prepare_items`. -/
structure ClassifiedItem where
  item : Item
  cell : String
  deriving DecidableEq, Repr

/-- Name-usage counter: the Python `name_counts` dict, as an association
list (most recent binding first). -/
def Counts : Type := List (String × Nat)

/-- Python whitespace for `str.strip()`. -/
def isStripChar (c : Char) : Bool :=
  c = ' ' || c = '\t' || c = '\n' || c = '\r'

/-- Python `str.strip()`: drop leading and trailing whitespace (defined by
structural recursion on the character list). -/
def pyStrip (s : String) : String :=
  String.mk (((s.data.dropWhile isStripChar).reverse.dropWhile
    isStripChar).reverse)

/-- `name_counts.get(name, 0)`. -/
def getCount (counts : Counts) (name : String) : Nat :=
  (List.lookup name counts).getD 0

/-- `name_counts[name] = name_counts.get(name, 0) + 1`. -/
def bumpCount (counts : Counts) (name : String) : Counts :=
  (name, getCount counts name + 1) :: counts

/-- The four cell keys of the 2×2 design. -/
def cellKeys : List String := ["A_label", "A_nolabel", "NA_label", "NA_nolabel"]

/-- `functions.py` line 259/268 cap test: an item is available under the
repetition cap iff its stripped display name is non-empty and that name's
current usage count is strictly below `max_repeats`. -/
def underCap (counts : Counts) (max_repeats : Nat) (it : Item) : Bool :=
  pyStrip it.product_name ≠ "" && getCount counts (pyStrip it.product_name) < max_repeats

/-- Pass-1 test of `sample_row` (lines 254-262): under the cap AND the
Danish-preference flag (`is_lang_da is True or is_danish_like is True`). -/
def pass1Ok (counts : Counts) (max_repeats : Nat) (it : Item) : Bool :=
  underCap counts max_repeats it && (it.is_lang_da || it.is_danish_like)

/-- `sample_row(pool, rng, name_counts, max_repeats)` from
`src/code/src/functions.py` lines 242-271.  The shuffled index order
`idxs` (Python: `idxs = rng.permutation(len(pool))`) is an explicit
argument.  Pass 1 returns the first item in shuffled order that is under
the cap, has a non-empty stripped name, and carries the Danish flag;
pass 2 rescans for the first item with non-empty name under the cap;
otherwise `none`. -/
def sample_row (pool : List Item) (idxs : List Nat) (counts : Counts)
    (max_repeats : Nat) : Option Item :=
  if pool.length = 0 then none
  else
    match (applyPerm idxs pool).find? (pass1Ok counts max_repeats) with
    | some rec0 => some rec0
    | none => (applyPerm idxs pool).find? (underCap counts max_repeats)

/-- Category-scoped pool lookup of `build_pools` (lines 229-231): the items
of category `cat` whose cell is `key`, in input order. -/
def pools_by_cat (items : List ClassifiedItem) (cat : String) (key : String) :
    List Item :=
  (items.filter (fun ci => ci.item.category = cat && ci.cell = key)).map
    (fun ci => ci.item)

/-- Global pool of `build_pools` (lines 233-236): all items whose cell is
`key`, regardless of category, in input order. -/
def global_pools (items : List ClassifiedItem) (key : String) : List Item :=
  (items.filter (fun ci => ci.cell = key)).map (fun ci => ci.item)

end PerceptionMST

namespace PerceptionMST

/-! ### Signal derivation and classification (`functions.py` lines 114-130,
195-206) -/

/-- ASCII upper-casing of a string (pandas `.str.upper()` on the grade
letters that matter here). -/
def strUpper (s : String) : String := String.mk (s.data.map Char.toUpper)

/-- ASCII lower-casing of a string (pandas `.str.lower()`). -/
def strLower (s : String) : String := String.mk (s.data.map Char.toLower)

/-- `derive_eco_signal` (lines 114-116): 1 iff the stripped, upper-cased
`eco_score` is `"A"` or `"B"`, else 0. -/
def derive_eco_signal (eco_score : String) : Nat :=
  if strUpper (pyStrip eco_score) = "A" ∨ strUpper (pyStrip eco_score) = "B" then 1 else 0

/-- Delimiter class of `_ORG_REGEX`: `[,;:\s]`. -/
def isOrgDelim (c : Char) : Bool :=
  c = ',' || c = ';' || c = ':' || c = ' ' || c = '\t' || c = '\n' || c = '\r'

/-- The organic keywords of `_ORG_REGEX` (lower-cased alternatives). -/
def orgKeywords : List (List Char) :=
  [ "en:organic".data, "da:økologisk".data, "da:okologisk".data,
    "da:oekologisk".data, "organic".data, "økologisk".data,
    "okologisk".data, "oekologisk".data, "bio".data, "biologique".data,
    "ecologico".data, "ecológico".data, "ökologisch".data, "öko".data ]

/-- Does `kw` occur at the head of `s`, followed by end-of-string or a
delimiter (the `(?:$|[,;:\s])` tail of `_ORG_REGEX`)? -/
def kwMatchesHere : List Char → List Char → Bool
  | [], [] => true
  | [], c :: _ => isOrgDelim c
  | _ :: _, [] => false
  | k :: ks, c :: cs => k = c && kwMatchesHere ks cs

/-- Scan of `_ORG_REGEX` over a (lower-cased) character list: a keyword
must start at the beginning of the string or right after a delimiter
(the `(?:^|[,;:\s])` head of the pattern). -/
def orgScan : Bool → List Char → Bool
  | _, [] => false
  | atBoundary, c :: cs =>
      (atBoundary && orgKeywords.any (fun kw => kwMatchesHere kw (c :: cs)))
      || orgScan (isOrgDelim c) cs

/-- `derive_organic_label` (lines 127-130): 1 iff the lower-cased
`labels_tags` string contains a whole delimited organic keyword. -/
def derive_organic_label (labels_tags : String) : Nat :=
  if orgScan true (strLower labels_tags).data then 1 else 0

/-- The `np.select` cell assignment of `prepare_items` (lines 195-205):
conditions `[A&L, A&NL, NA&L, NA&NL]` over `eco_signal` and
`organic_label`, default `"other"`. -/
def cellOfSignals (eco org : Nat) : String :=
  if eco = 1 && org = 1 then "A_label"
  else if eco = 1 && org = 0 then "A_nolabel"
  else if eco = 0 && org = 1 then "NA_label"
  else if eco = 0 && org = 0 then "NA_nolabel"
  else "other"

/-- The raw fields of one row that feed the classifier. -/
structure RawItem where
  product_name : String
  category : String
  eco_score : String
  labels_tags : String
  is_danish_like : Bool
  is_lang_da : Bool
  deriving DecidableEq, Repr

/-- Per-row classification step of `prepare_items` (lines 192-205): derive
`eco_signal` and `organic_label`, then assign the cell. -/
def classifyRow (r : RawItem) : ClassifiedItem :=
  let eco := derive_eco_signal r.eco_score
  let org := derive_organic_label r.labels_tags
  { item := { product_name := r.product_name, category := r.category,
              eco_score := r.eco_score, eco_signal := eco,
              organic_label := org, is_danish_like := r.is_danish_like,
              is_lang_da := r.is_lang_da },
    cell := cellOfSignals eco org }

/-- Lines 201-206 of `prepare_items`: assign cells, then keep only rows
whose cell is one of the four defined cells. -/
def prepareCells (rows : List RawItem) : List ClassifiedItem :=
  (rows.map classifyRow).filter (fun ci => ci.cell ∈ cellKeys)

/-- The four `np.select` conditions, in order. -/
def selectConds (eco org : Nat) : List Bool :=
  [ eco = 1 && org = 1, eco = 1 && org = 0,
    eco = 0 && org = 1, eco = 0 && org = 0 ]

end PerceptionMST

namespace PerceptionMST

/-! ### Single-item stimulus set (`src/code/03a_build_stimulus_set.py`) -/

/-- One input row of the script (after its `lang_da == 1` and
`eco_score.notna()` filters and the `astype(int)` casts). -/
structure Row03a where
  product_name : String
  organic_badge : Nat
  eco_signal : Nat
  eco_score : String
  deriving DecidableEq, Repr

/-- One output stimulus row: the input row plus `salience` and `item_id`. -/
structure StimRow where
  product_name : String
  organic_badge : Nat
  eco_signal : Nat
  eco_score : String
  salience : String
  item_id : Nat
  deriving DecidableEq, Repr

/-- `df["cell"] = list(zip(df["organic_badge"], df["eco_signal"]))`. -/
def cell03a (r : Row03a) : Nat × Nat := (r.organic_badge, r.eco_signal)

/-- `all_cells = [(0, 0), (0, 1), (1, 0), (1, 1)]`. -/
def all_cells : List (Nat × Nat) := [(0, 0), (0, 1), (1, 0), (1, 1)]

/-- `target_total = 240` (script line 11; configured but, as the pipeline
below shows, never used to derive the per-cell count). -/
def target_total : Nat := 240

/-- `random_seed = 637` (script line 12). -/
def random_seed : Nat := 637

/-- `target_per_cell = 20` (script line 62). -/
def target_per_cell : Nat := 20

/-- `n_per_cell = target_per_cell * 2` (script line 65). -/
def n_per_cell : Nat := target_per_cell * 2

/-- `available_per_cell[c]`: number of loaded rows in cell `c`. -/
def available_per_cell (df : List Row03a) (c : Nat × Nat) : Nat :=
  (df.filter (fun r => cell03a r = c)).length

/-- `max_balanced_per_cell = min(available_per_cell.values())`. -/
def max_balanced_per_cell (df : List Row03a) : Nat :=
  min (min (available_per_cell df (0, 0)) (available_per_cell df (0, 1)))
    (min (available_per_cell df (1, 0)) (available_per_cell df (1, 1)))

/-- The `SystemExit` message of script lines 69-73, including the requested
counts and every cell's availability. -/
def err03a (df : List Row03a) : String :=
  "[ERR] Not enough items to allocate " ++ toString target_per_cell ++
  " per 8-cell. Need " ++ toString n_per_cell ++
  " per 4-cell but smallest cell has " ++
  toString (max_balanced_per_cell df) ++ ". Available per cell: \x7b(0, 0): " ++
  toString (available_per_cell df (0, 0)) ++ ", (0, 1): " ++
  toString (available_per_cell df (0, 1)) ++ ", (1, 0): " ++
  toString (available_per_cell df (1, 0)) ++ ", (1, 1): " ++
  toString (available_per_cell df (1, 1)) ++ "\x7d"

/-- The explicit random choices the script consumes, one permutation per
`numpy` call: `samplePerm i n` models `sub.sample(n=..., random_state=
random_seed + hash(cell))` for the `i`-th cell of `all_cells` (the seeded
draw is a deterministic function of the seed; sampling `take` rows is
taking the first `take` positions of a permutation of the sub-frame);
`saliencePerm i n` models the `rng.shuffle(idx)` for the `i`-th cell;
`finalPerm n` models `stim.sample(frac=1.0, random_state=random_seed)`. -/
structure Rand03a where
  samplePerm : Nat → Nat → List Nat
  saliencePerm : Nat → Nat → List Nat
  finalPerm : Nat → List Nat

/-- Genuine-shuffle condition: every supplied index list is a permutation
of `List.range n` for the size it is used at. -/
def Rand03a.Valid (r : Rand03a) : Prop :=
  (∀ i n, (r.samplePerm i n).Perm (List.range n)) ∧
  (∀ i n, (r.saliencePerm i n).Perm (List.range n)) ∧
  (∀ n, (r.finalPerm n).Perm (List.range n))

/-- Script lines 84-102: for the `i`-th cell, `sub = df[df.cell == cell]`,
`take = len(sub)` if the cell is deficient else `n_per_cell`, then a
seeded random sample of `take` rows. -/
def sampleCell (df : List Row03a) (rand : Rand03a) (i : Nat) (c : Nat × Nat) :
    List Row03a :=
  let sub := df.filter (fun r => cell03a r = c)
  let take := if sub.length < n_per_cell then sub.length else n_per_cell
  (applyPerm (rand.samplePerm i sub.length) sub).take take

/-- Script line 104: concatenate the four per-cell samples. -/
def stimConcat (df : List Row03a) (rand : Rand03a) : List Row03a :=
  sampleCell df rand 0 (0, 0) ++ sampleCell df rand 1 (0, 1) ++
  sampleCell df rand 2 (1, 0) ++ sampleCell df rand 3 (1, 1)

/-- Positions (data-frame index values) of the rows of `stim` lying in
cell `c`: `stim.index[stim["cell"] == cell]`. -/
def posIdx (stim : List Row03a) (c : Nat × Nat) : List Nat :=
  stim.enum.filterMap (fun p => if cell03a p.2 = c then some p.1 else none)

/-- Script lines 119-124 for the `i`-th cell: shuffle the cell's index
list and take its first half (`idx[:half]`, `half = n // 2`) — the rows
that receive `"low"`. -/
def lowPos (stim : List Row03a) (rand : Rand03a) (i : Nat) (c : Nat × Nat) :
    List Nat :=
  let idx := posIdx stim c
  (applyPerm (rand.saliencePerm i idx.length) idx).take (idx.length / 2)

/-- The complementary `idx[half:]` — the rows that receive `"high"`. -/
def highPos (stim : List Row03a) (rand : Rand03a) (i : Nat) (c : Nat × Nat) :
    List Nat :=
  let idx := posIdx stim c
  (applyPerm (rand.saliencePerm i idx.length) idx).drop (idx.length / 2)

/-- All positions assigned `"low"` across the four cells. -/
def allLowPos (stim : List Row03a) (rand : Rand03a) : List Nat :=
  (all_cells.enum.map (fun p => lowPos stim rand p.1 p.2)).flatten

/-- All positions assigned `"high"` across the four cells. -/
def allHighPos (stim : List Row03a) (rand : Rand03a) : List Nat :=
  (all_cells.enum.map (fun p => highPos stim rand p.1 p.2)).flatten

/-- Salience value written at position `i` by script lines 111-127.  The
column starts as `""`; `"low"` is written to the low indices and `"high"`
to the high indices of each cell afterwards, so a position carrying both
(impossible for genuine shuffles, where low and high indices are
disjoint) ends as `"high"` — last write wins. -/
def salienceAt (stim : List Row03a) (rand : Rand03a) (i : Nat) : String :=
  if i ∈ allHighPos stim rand then "high"
  else if i ∈ allLowPos stim rand then "low"
  else ""

/-- Script lines 111-127: the concatenated frame with its salience column
filled in per cell. -/
def withSalience (df : List Row03a) (rand : Rand03a) : List StimRow :=
  let stim := stimConcat df rand
  stim.enum.map (fun p =>
    { product_name := p.2.product_name, organic_badge := p.2.organic_badge,
      eco_signal := p.2.eco_signal, eco_score := p.2.eco_score,
      salience := salienceAt stim rand p.1, item_id := 0 })

/-- Script lines 130-133: any row still carrying an empty salience is
filled with `"low"`. -/
def fillEmptySalience (rows : List StimRow) : List StimRow :=
  rows.map (fun r => if r.salience = "" then { r with salience := "low" } else r)

/-- Script lines 166-180: the manual `name_overrides_by_item_id` table. -/
def name_overrides_by_item_id : List (Nat × String) :=
  [ (20, "Tun på dåse"), (22, "Hvidløg"),
    (47, "Rustikki Bread Sticks Blå Birkes"), (54, "Skyr med frugt"),
    (61, "ØGO Hvedemel"), (68, "Økologisk kakao soya drik"),
    (76, "Yalla! Drikkeyoghurt, Jordbær & granatæble laktosefri"),
    (78, "Cocio classic chokolademælk"), (105, "Hvidløgsdressing"),
    (120, "Burger boller"), (150, "Frisk rødkål") ]

/-- Script line 180: replace a row's product name when its `item_id` is in
the override table. -/
def applyNameOverride (r : StimRow) : StimRow :=
  match List.lookup r.item_id name_overrides_by_item_id with
  | some nm => { r with product_name := nm }
  | none => r

/-- The whole stimulus-set construction of `03a_build_stimulus_set.py`
(after its input filters): check availability against
`max_balanced_per_cell` (lines 67-73, `SystemExit` on deficiency — the
check precedes every sampling step), sample each cell, assign salience,
fill any empty salience, shuffle the whole set (line 138), assign
`item_id = 1..N` in final order (line 139), and apply the name overrides
(line 180). -/
def buildStimulusSet (df : List Row03a) (rand : Rand03a) :
    Except String (List StimRow) :=
  if n_per_cell > max_balanced_per_cell df then .error (err03a df)
  else
    let rows := fillEmptySalience (withSalience df rand)
    let shuffled := applyPerm (rand.finalPerm rows.length) rows
    .ok ((shuffled.enum.map (fun p => { p.2 with item_id := p.1 + 1 })).map
      applyNameOverride)

/-- The numpy *global* generator state (what `np.random.*` module-level
calls would consume).  The script threads explicit seeds into every
sampling call and never touches the global generator, so the pipeline
ignores this argument; it is made explicit so that independence from
implicit global randomness is a provable statement rather than a
convention. -/
def buildStimulusSetAmbient (df : List Row03a) (rand : Rand03a)
    (_globalRngState : Nat) : Except String (List StimRow) :=
  buildStimulusSet df rand

/-- Count of output rows lying in cell `c`. -/
def countCellOut (rows : List StimRow) (c : Nat × Nat) : Nat :=
  (rows.filter (fun r => (r.organic_badge, r.eco_signal) = c)).length

/-- Count of output rows lying in cell `c` with salience `s`. -/
def countCellSal (rows : List StimRow) (c : Nat × Nat) (s : String) : Nat :=
  (rows.filter (fun r => (r.organic_badge, r.eco_signal) = c && r.salience = s)).length

/-- Count of input rows lying in cell `c`. -/
def countRow03a (rows : List Row03a) (c : Nat × Nat) : Nat :=
  (rows.filter (fun r => cell03a r = c)).length

end PerceptionMST

namespace PerceptionMST

/-! ### Two-item trial construction (`functions.py` lines 273-389) -/

/-- The four pools of one category (or the global pools): one item list
per cell key. -/
structure CellPools where
  pA_label : List Item
  pA_nolabel : List Item
  pNA_label : List Item
  pNA_nolabel : List Item
  deriving Repr

/-- Pool lookup by cell key (`pools[key]`). -/
def CellPools.get (p : CellPools) (key : String) : List Item :=
  if key = "A_label" then p.pA_label
  else if key = "A_nolabel" then p.pA_nolabel
  else if key = "NA_label" then p.pNA_label
  else p.pNA_nolabel

/-- The random source of `build_trials_flat`: `rs k n` is the permutation
of `List.range n` produced by the `k`-th `numpy` generator call of the
run (`rng.permutation` / `rng.shuffle`).  The call counter `k` is
threaded through the computation exactly in the order the Python code
invokes the generator. -/
def Rs : Type := Nat → Nat → List Nat

/-- One constructed trial record (the dict built by `make_trial`, lines
308-321, plus the `salience` key written by `build_trials_flat`
line 374). -/
structure Trial where
  congruent : Nat
  left_is_A : Nat
  left_name : String
  left_cat : String
  left_label : Nat
  left_is_sust : Nat
  right_name : String
  right_cat : String
  right_label : Nat
  right_is_sust : Nat
  salience : String
  deriving DecidableEq, Repr

/-- `int(bool(x))` for a 0/1-ish integer column. -/
def intOfNonzero (x : Nat) : Nat := if x = 0 then 0 else 1

/-- The trial dict assembled at lines 307-321 (`salience` not yet set). -/
def mkTrial (congruent left_is_A : Bool) (a na : Item) : Trial :=
  let left := if left_is_A then a else na
  let right := if left_is_A then na else a
  { congruent := if congruent then 1 else 0,
    left_is_A := if left_is_A then 1 else 0,
    left_name := left.product_name, left_cat := left.category,
    left_label := intOfNonzero left.organic_label,
    left_is_sust := intOfNonzero left.eco_signal,
    right_name := right.product_name, right_cat := right.category,
    right_label := intOfNonzero right.organic_label,
    right_is_sust := intOfNonzero right.eco_signal,
    salience := "" }

/-- `sample_row` as invoked inside the trial builder: consumes one
generator call (`rng.permutation(len(pool))`) iff the pool is non-empty
(line 248 returns before the permutation is drawn on an empty pool).
Returns the drawn item and the advanced call counter. -/
def sample_row_r (pool : List Item) (rs : Rs) (k : Nat) (counts : Counts)
    (max_repeats : Nat) : Option Item × Nat :=
  if pool.length = 0 then (none, k)
  else (sample_row pool (rs k pool.length) counts max_repeats, k + 1)

/-- `make_trial` (lines 273-321).  `pbc` is the category→pools dict as an
association list in its iteration order; the category list is shuffled
(one generator call), the first category with both required pools
non-empty is chosen (Python `if chosen:` also treats the empty-string
category name as falsy), otherwise the global pools serve as fallback;
one item is drawn per side. -/
def make_trial (congruent left_is_A : Bool) (pbc : List (String × CellPools))
    (gp : CellPools) (rs : Rs) (k : Nat) (counts : Counts)
    (max_repeats : Nat) : Option Trial × Nat :=
  let a_need := if congruent then "A_label" else "A_nolabel"
  let na_need := if congruent then "NA_nolabel" else "NA_label"
  let cats := applyPerm (rs k pbc.length) pbc
  let chosen := cats.find? (fun q =>
    0 < (q.2.get a_need).length && 0 < (q.2.get na_need).length)
  let pools := match chosen with
    | some q => if q.1 = "" then (gp.get a_need, gp.get na_need)
                else (q.2.get a_need, q.2.get na_need)
    | none => (gp.get a_need, gp.get na_need)
  let ra := sample_row_r pools.1 rs (k + 1) counts max_repeats
  let rna := sample_row_r pools.2 rs ra.2 counts max_repeats
  match ra.1, rna.1 with
  | some a, some na => (some (mkTrial congruent left_is_A a na), rna.2)
  | _, _ => (none, rna.2)

/-- The retry loop of lines 362-370: up to `budget` (= 15) further
`make_trial` attempts while the result stays `None`. -/
def retryTrial (congruent left_is_A : Bool) (pbc : List (String × CellPools))
    (gp : CellPools) (rs : Rs) (max_repeats : Nat) :
    Nat → Nat → Counts → Option Trial × Nat
  | 0, k, _ => (none, k)
  | budget + 1, k, counts =>
      let r := make_trial congruent left_is_A pbc gp rs k counts max_repeats
      match r.1 with
      | some t => (some t, r.2)
      | none => retryTrial congruent left_is_A pbc gp rs max_repeats budget r.2 counts

/-- `ln = (tr.get("left_name") or "").strip(); if ln: name_counts[ln] += 1`
(lines 376-379), applied to both sides. -/
def bumpTrialNames (counts : Counts) (t : Trial) : Counts :=
  let c1 := if pyStrip t.left_name = "" then counts else bumpCount counts (pyStrip t.left_name)
  if pyStrip t.right_name = "" then c1 else bumpCount c1 (pyStrip t.right_name)

/-- The `while cell_filled < need` loop body of lines 351-382 for one cell,
by recursion on the number of trials still needed: one `make_trial`
attempt, on failure up to 15 retries, on total failure `break` (the whole
remainder of this cell is abandoned and the counter state is returned
unchanged); on success set `salience`, bump both names, append, continue. -/
def fillCell (congruent left_is_A : Bool) (s : String)
    (pbc : List (String × CellPools)) (gp : CellPools) (rs : Rs)
    (max_repeats : Nat) : Nat → Nat → Counts → List Trial × Nat × Counts
  | 0, k, counts => ([], k, counts)
  | need + 1, k, counts =>
      let r0 := make_trial congruent left_is_A pbc gp rs k counts max_repeats
      let r := match r0.1 with
        | some t => (some t, r0.2)
        | none => retryTrial congruent left_is_A pbc gp rs max_repeats 15 r0.2 counts
      match r.1 with
      | none => ([], r.2, counts)
      | some t =>
          let t' := { t with salience := s }
          let counts' := bumpTrialNames counts t'
          let rest := fillCell congruent left_is_A s pbc gp rs max_repeats need r.2 counts'
          (t' :: rest.1, rest.2.1, rest.2.2)

/-- `cells = [(c, l, s) for c in (0,1) for l in (0,1) for s in
("low","high")]` (lines 333-335). -/
def cellsList : List (Nat × Nat × String) :=
  [ (0, 0, "low"), (0, 0, "high"), (0, 1, "low"), (0, 1, "high"),
    (1, 0, "low"), (1, 0, "high"), (1, 1, "low"), (1, 1, "high") ]

/-- A dynamically typed Python scalar as it occurs in the tuple keys of
`cell_targets` and in the rows of `rng.permutation(cells)`: an `int` or a
`str`.  Python tuple equality compares componentwise and `0 == "0"` is
`False` there, which the derived equality mirrors. -/
inductive PyVal where
  | pint : Nat → PyVal
  | pstr : String → PyVal
  deriving DecidableEq, Repr

/-- `str(v)` of a scalar, as `numpy` renders the elements of a coerced
array. -/
def pyStrOf : PyVal → String
  | .pint n => toString n
  | .pstr s => s

/-- `bool(v)`: a nonzero int or a non-empty string is truthy. -/
def pyTruthy : PyVal → Bool
  | .pint n => n != 0
  | .pstr s => s != ""

/-- The cell tuples with their Python component types: `(int, int, str)`. -/
def cellsPy : List (PyVal × PyVal × PyVal) :=
  cellsList.map (fun q => (PyVal.pint q.1, PyVal.pint q.2.1, PyVal.pstr q.2.2))

/-- What `np.asarray` does to one cell tuple inside `rng.permutation(cells)`
(line 349): the mixed `int`/`str` components have no common numeric dtype,
so the whole `(8, 3)` array is promoted to a unicode string dtype and every
component comes back as a string — `(0, 0, "low")` becomes
`("0", "0", "low")`. -/
def npCellStr (cell : PyVal × PyVal × PyVal) : PyVal × PyVal × PyVal :=
  (PyVal.pstr (pyStrOf cell.1), PyVal.pstr (pyStrOf cell.2.1),
    PyVal.pstr (pyStrOf cell.2.2))

/-- `cell_targets[cell] += 1` for a key the dict holds (value update in
place, keys unchanged). -/
def bumpTarget (ct : List ((PyVal × PyVal × PyVal) × Nat))
    (key : PyVal × PyVal × PyVal) : List ((PyVal × PyVal × PyVal) × Nat) :=
  ct.map (fun p => if p.1 == key then (p.1, p.2 + 1) else p)

/-- `cell_targets` (lines 337-343) as the dict it is in the source, keyed by
the typed `(int, int, str)` tuples: base quota `n_trials // 8` per cell,
and the cells indexed by the first `n_trials % 8` entries of a permutation
of `range(8)` (the `k = 0` generator call, an integer array that numpy
does not coerce) receive one extra. -/
def mkCellTargets (n_trials : Nat) (rs : Rs) :
    List ((PyVal × PyVal × PyVal) × Nat) :=
  ((rs 0 8).take (n_trials % 8)).foldl
    (fun ct idx =>
      bumpTarget ct
        (cellsPy.getD idx (PyVal.pint 0, PyVal.pint 0, PyVal.pstr "low")))
    (cellsPy.map (fun cell => (cell, n_trials / 8)))

/-- Python dict access `d[key]`: `some` value when the key is present, and
`none` for the `KeyError` the source raises on a missing key. -/
def lookupCT (ct : List ((PyVal × PyVal × PyVal) × Nat))
    (key : PyVal × PyVal × PyVal) : Option Nat :=
  (ct.find? (fun p => p.1 == key)).map (fun p => p.2)

/-- The `for c, l, s in rng.permutation(cells)` loop of lines 349-382.  The
permuted array rows are the string-coerced cells, and the first statement
of each iteration is the dict access `cell_targets[(c, l, s)]` (line 350);
a missing key raises `KeyError` carrying the key, aborting the whole call.
Were the lookup to succeed, the body would run the `while cell_filled <
need` loop (`fillCell`; `cell_filled` and `cell_targets` share their keys,
so the filled count is tracked by counting `need` down), with `bool(c)`,
`bool(l)` and the string `s` as the loop-variable uses of lines 353-374. -/
def runCells (pbc : List (String × CellPools)) (gp : CellPools) (rs : Rs)
    (max_repeats : Nat) (ct : List ((PyVal × PyVal × PyVal) × Nat)) :
    List (PyVal × PyVal × PyVal) → Nat → Counts →
      Except (PyVal × PyVal × PyVal) (List Trial × Nat × Counts)
  | [], k, counts => .ok ([], k, counts)
  | cell :: rest, k, counts =>
      match lookupCT ct cell with
      | none => .error cell
      | some need =>
          let r := fillCell (pyTruthy cell.1) (pyTruthy cell.2.1)
            (pyStrOf cell.2.2) pbc gp rs max_repeats need k counts
          match runCells pbc gp rs max_repeats ct rest r.2.1 r.2.2 with
          | .error e => .error e
          | .ok (ts, k2, c2) => .ok (r.1 ++ ts, k2, c2)

/-- `build_trials_flat(n_trials, pools_by_cat, global_pools, seed,
max_repeats_per_name)` (lines 323-389): compute the per-cell targets
(generator call 0), then iterate `rng.permutation(cells)` (call 1) — which
string-coerces the cells — looking each loop-variable tuple up in
`cell_targets`.  The value is the trial list with the final call counter
and name counter when every lookup succeeds, and the key of the `KeyError`
that escapes the function otherwise. -/
def build_trials_flat (n_trials : Nat) (pbc : List (String × CellPools))
    (gp : CellPools) (rs : Rs) (max_repeats_per_name : Nat) :
    Except (PyVal × PyVal × PyVal) (List Trial × Nat × Counts) :=
  runCells pbc gp rs max_repeats_per_name (mkCellTargets n_trials rs)
    (applyPerm (rs 1 8) (cellsPy.map npCellStr)) 2 []

end PerceptionMST

namespace PerceptionMST

/-! ### Block partitioning
(`src/code/experiment/experiment_run_functions.py` lines 270-306) -/

/-- One stimulus row as consumed by `build_blocks_from_items`. -/
structure BItem where
  product_name : String
  organic_badge : Nat
  eco_signal : Nat
  salience : String
  deriving DecidableEq, Repr

/-- The stratification key `_cell = (organic_badge, eco_signal,
salience.lower().strip())` (lines 281-287). -/
def bcell (it : BItem) : Nat × Nat × String :=
  (it.organic_badge, it.eco_signal, pyStrip (strLower it.salience))

/-- The members of one `groupby("_cell")` group, in input order. -/
def groupOf (df : List BItem) (c : Nat × Nat × String) : List BItem :=
  df.filter (fun it => bcell it = c)

/-- Round-robin distribution (lines 293-294): the elements of a list whose
position `k` (counting from the given start) satisfies `k % B = j` —
i.e. the part of a shuffled group appended to block `j`. -/
def distribAux {α : Type} (B j : Nat) : Nat → List α → List α
  | _, [] => []
  | k, x :: xs =>
      if k % B = j then x :: distribAux B j (k + 1) xs
      else distribAux B j (k + 1) xs

/-- The contents of block `j` after the grouped round-robin loop of lines
289-294 and before the per-block shuffle: each group (taken in the
`groupby` iteration order `cellOrder`) is shuffled (`gperm g n` is the
`rng.shuffle` permutation for the `g`-th group) and dealt round-robin,
positions `≡ j (mod B)` landing in block `j`. -/
def blockRaw (df : List BItem) (B : Nat) (cellOrder : List (Nat × Nat × String))
    (gperm : Nat → Nat → List Nat) (j : Nat) : List BItem :=
  (cellOrder.enum.map (fun p =>
    distribAux B j 0
      (applyPerm (gperm p.1 (groupOf df p.2).length) (groupOf df p.2)))).flatten

/-- `build_blocks_from_items(df, n_blocks, rng_seed)` (lines 270-306):
group by `_cell` (the iteration order of the groups is the explicit
`cellOrder` argument; pandas iterates them in sorted key order), shuffle
each group, deal its members round-robin over the `B` blocks, then
independently shuffle each block (`bdf.sample(frac=1.0)`, modelled by
`bperm j n`). -/
def build_blocks_from_items (df : List BItem) (B : Nat)
    (cellOrder : List (Nat × Nat × String)) (gperm : Nat → Nat → List Nat)
    (bperm : Nat → Nat → List Nat) : List (List BItem) :=
  (List.range B).map (fun j =>
    let b := blockRaw df B cellOrder gperm j
    applyPerm (bperm j b.length) b)

/-- Number of items of stratification cell `c` in a block. -/
def countBCell (rows : List BItem) (c : Nat × Nat × String) : Nat :=
  (rows.filter (fun it => bcell it = c)).length

end PerceptionMST

namespace PerceptionMST

/-! ### Concrete inputs used by counterexamples and witnesses -/

/-- A pool item whose display name strips to the empty string (legal input
to the sampler: `sample_row` receives arbitrary pools).  It carries the
Danish-preference flag and would be the pass-1 favourite were names not
required to be non-empty. -/
def itemBlank : Item :=
  { product_name := " ", category := "c", eco_score := "A", eco_signal := 1,
    organic_label := 0, is_danish_like := true, is_lang_da := true }

/-- `n` rows of cell `(b, e)` for the single-item script. -/
def mkRows03a (b e n : Nat) : List Row03a :=
  (List.range n).map (fun i =>
    { product_name := "p" ++ toString i, organic_badge := b, eco_signal := e,
      eco_score := "A" })

/-- 240 rows, 60 in each of the four cells — the input of the claimed
`T = 240` scenario (every cell has at least 60 available items). -/
def df240 : List Row03a :=
  mkRows03a 0 0 60 ++ mkRows03a 0 1 60 ++ mkRows03a 1 0 60 ++ mkRows03a 1 1 60

/-- A deficient input: one row per cell (fewer than `n_per_cell`). -/
def df4 : List Row03a :=
  mkRows03a 0 0 1 ++ mkRows03a 0 1 1 ++ mkRows03a 1 0 1 ++ mkRows03a 1 1 1

/-- Identity randomness for the single-item script: every `numpy` call
yields the identity permutation (a valid shuffle). -/
def randId : Rand03a :=
  { samplePerm := fun _ n => List.range n,
    saliencePerm := fun _ n => List.range n,
    finalPerm := fun n => List.range n }

/-- Identity randomness for the trial builder. -/
def rsId : Rs := fun _ n => List.range n

/-- An `A_nolabel` item named `X`. -/
def itemXA : Item :=
  { product_name := "X", category := "cat", eco_score := "A", eco_signal := 1,
    organic_label := 0, is_danish_like := false, is_lang_da := false }

/-- Empty category pools (the dict `pools_by_cat` with no categories). -/
def noCats : List (String × CellPools) := []

/-- A named item of the well-stocked category, with the given name and
signals. -/
def goodItem (nm : String) (eco org : Nat) : Item :=
  { product_name := nm, category := "good",
    eco_score := if eco = 1 then "A" else "D", eco_signal := eco,
    organic_label := org, is_danish_like := false, is_lang_da := false }

/-- A well-stocked category: one properly named item per cell. -/
def goodPools : CellPools :=
  { pA_label := [goodItem "gAL" 1 1], pA_nolabel := [goodItem "gANL" 1 0],
    pNA_label := [goodItem "gNAL" 0 1],
    pNA_nolabel := [goodItem "gNANL" 0 0] }

/-- `n` block-partitioner rows of design cell `(b, e)`, all of salience
`"low"`. -/
def mkBItems (b e n : Nat) : List BItem :=
  (List.range n).map (fun i =>
    { product_name := "q" ++ toString i, organic_badge := b, eco_signal := e,
      salience := "low" })

/-- 160 items: four stratification cells with 40 items each. -/
def dfBlocks : List BItem :=
  mkBItems 0 0 40 ++ mkBItems 0 1 40 ++ mkBItems 1 0 40 ++ mkBItems 1 1 40

/-- The four stratification cells of `dfBlocks`, in sorted key order. -/
def blockCells : List (Nat × Nat × String) :=
  [(0, 0, "low"), (0, 1, "low"), (1, 0, "low"), (1, 1, "low")]

/-- Identity group shuffles for the block partitioner. -/
def gpermId : Nat → Nat → List Nat := fun _ n => List.range n

end PerceptionMST

namespace PerceptionMST

/-! ### General lemmas about `applyPerm` -/

theorem filterMap_get?_range {α : Type} (l : List α) :
    (List.range l.length).filterMap l.get? = l := by
  induction l with
  | nil => rfl
  | cons a l ih =>
      rw [List.length_cons, List.range_succ_eq_map, List.filterMap_cons,
        List.filterMap_map]
      simp only [List.get?_cons_zero]
      have : (fun i => (a :: l).get? i) ∘ Nat.succ = l.get? := by
        funext i; simp [List.get?_cons_succ]
      rw [this, ih]

theorem applyPerm_perm {α : Type} {idxs : List Nat} {l : List α}
    (h : idxs.Perm (List.range l.length)) : (applyPerm idxs l).Perm l := by
  have := h.filterMap l.get?
  rwa [filterMap_get?_range] at this

theorem applyPerm_mem {α : Type} {idxs : List Nat} {l : List α} {x : α}
    (h : x ∈ applyPerm idxs l) : x ∈ l := by
  obtain ⟨i, _, hi⟩ := List.mem_filterMap.mp h
  exact List.get?_mem hi

theorem applyPerm_length {α : Type} {idxs : List Nat} {l : List α}
    (h : idxs.Perm (List.range l.length)) :
    (applyPerm idxs l).length = l.length :=
  (applyPerm_perm h).length_eq

/-! ### C7: category pools are contained in the global pools -/

/-- C7: for every classified item set, every item present in a
category-scoped pool of `build_pools` for a cell is also present in the
global pool of that same cell. -/
theorem build_pools_cat_subset_global :
    ∀ (items : List ClassifiedItem) (cat key : String) (it : Item),
      it ∈ pools_by_cat items cat key → it ∈ global_pools items key := by
  intro items cat key it h
  obtain ⟨ci, hci, rfl⟩ := List.mem_map.mp h
  obtain ⟨hmem, hp⟩ := List.mem_filter.mp hci
  simp only [Bool.and_eq_true] at hp
  obtain ⟨-, hcell⟩ := hp
  exact List.mem_map.mpr ⟨ci, List.mem_filter.mpr ⟨hmem, hcell⟩, rfl⟩

/-- Witness for `build_pools_cat_subset_global` at a concrete item set. -/
theorem build_pools_cat_subset_global_witness :
    itemXA ∈ global_pools [⟨itemXA, "A_nolabel"⟩] "A_nolabel" :=
  build_pools_cat_subset_global [⟨itemXA, "A_nolabel"⟩] "cat" "A_nolabel"
    itemXA (by decide)

/-! ### C10: the "other" classifier branch is unreachable -/

theorem derive_eco_signal_cases (s : String) :
    derive_eco_signal s = 0 ∨ derive_eco_signal s = 1 := by
  unfold derive_eco_signal; split <;> simp

theorem derive_organic_label_cases (s : String) :
    derive_organic_label s = 0 ∨ derive_organic_label s = 1 := by
  unfold derive_organic_label; split <;> simp

/-- C10: in the item classifier, the "other" branch is unreachable — the
derived `eco_signal` and `organic_label` are always 0 or 1, every item
satisfies exactly one of the four `np.select` cell conditions, and the
filter keeping only the four defined cells removes no rows. -/
theorem classifier_other_unreachable :
    ∀ (rows : List RawItem) (r : RawItem),
      prepareCells rows = rows.map classifyRow
      ∧ (classifyRow r).cell ≠ "other"
      ∧ (selectConds (derive_eco_signal r.eco_score)
          (derive_organic_label r.labels_tags)).count true = 1 := by
  have key : ∀ r : RawItem, (classifyRow r).cell ∈ cellKeys ∧
      (classifyRow r).cell ≠ "other" ∧
      (selectConds (derive_eco_signal r.eco_score)
        (derive_organic_label r.labels_tags)).count true = 1 := by
    intro r
    have he := derive_eco_signal_cases r.eco_score
    have ho := derive_organic_label_cases r.labels_tags
    simp only [classifyRow]
    rcases he with he | he <;> rcases ho with ho | ho <;>
      rw [he, ho] <;> exact ⟨by decide, by decide, by decide⟩
  intro rows r
  refine ⟨?_, (key r).2.1, (key r).2.2⟩
  unfold prepareCells
  refine List.filter_eq_self.mpr ?_
  intro ci hci
  obtain ⟨r0, -, rfl⟩ := List.mem_map.mp hci
  exact decide_eq_true (key r0).1

end PerceptionMST

namespace PerceptionMST

/-! ### C2: the balanced sampler -/

theorem pass1Ok_underCap {counts : Counts} {m : Nat} {it : Item}
    (h : pass1Ok counts m it = true) : underCap counts m it = true := by
  simp only [pass1Ok, Bool.and_eq_true] at h
  exact h.1

/-- C2 (amended): for every pool, counter state and cap, with the index
list a genuine shuffle, `sample_row` returns the first item of the
shuffled order satisfying the pass-1 test (under the cap, non-empty
stripped name, Danish flag); when no item passes pass 1 it returns the
first-in-shuffled-order item with a non-empty name under the cap; and it
returns `None` exactly when no item with a *non-empty stripped name* in
the pool is under the cap (in particular on the empty pool). -/
theorem sample_row_characterization :
    ∀ (pool : List Item) (idxs : List Nat) (counts : Counts) (m : Nat),
      idxs.Perm (List.range pool.length) →
      ((sample_row pool idxs counts m = none ↔
          ∀ it ∈ pool, underCap counts m it = false)
       ∧ (∀ it, (applyPerm idxs pool).find? (pass1Ok counts m) = some it →
            sample_row pool idxs counts m = some it)
       ∧ ((applyPerm idxs pool).find? (pass1Ok counts m) = none →
            sample_row pool idxs counts m =
              (applyPerm idxs pool).find? (underCap counts m))) := by
  intro pool idxs counts m hperm
  have hpp : (applyPerm idxs pool).Perm pool := applyPerm_perm hperm
  by_cases h0 : pool.length = 0
  · have hnil : pool = [] := List.length_eq_zero.mp h0
    subst hnil
    have he : applyPerm idxs ([] : List Item) = [] := by simp [applyPerm]
    refine ⟨by simp [sample_row], ?_, ?_⟩
    · intro it hit; rw [he] at hit; simp at hit
    · intro _; rw [he]; simp [sample_row]
  · cases hfind : (applyPerm idxs pool).find? (pass1Ok counts m) with
    | some it =>
        have hs : sample_row pool idxs counts m = some it := by
          simp [sample_row, h0, hfind]
        refine ⟨?_, ?_, ?_⟩
        · rw [hs]
          constructor
          · intro h; exact absurd h (by simp)
          · intro hall
            have hmem := applyPerm_mem (List.mem_of_find?_eq_some hfind)
            have hu := pass1Ok_underCap (List.find?_some hfind)
            rw [hall it hmem] at hu
            exact absurd hu (by simp)
        · intro it2 h2
          rw [hs, Option.some_inj.mp h2]
        · intro h2
          exact absurd h2 (by simp)
    | none =>
        have hs : sample_row pool idxs counts m =
            (applyPerm idxs pool).find? (underCap counts m) := by
          simp [sample_row, h0, hfind]
        refine ⟨?_, ?_, ?_⟩
        · rw [hs]
          constructor
          · intro h it hit
            have := List.find?_eq_none.mp h it (hpp.mem_iff.mpr hit)
            exact Bool.not_eq_true _ ▸ by simpa using this
          · intro hall
            refine List.find?_eq_none.mpr ?_
            intro x hx
            rw [hall x (hpp.mem_iff.mp hx)]
            simp
        · intro it2 h2
          exact absurd h2 (by simp)
        · intro _; exact hs

/-- C2 counterexample to the claim as stated: a one-item pool whose item
has usage count 0 (strictly under the cap 1) and carries the language
flag, yet — its name stripping to the empty string — `sample_row`
returns `None`, and pass 1 does not return it either.  The supplied
order `[0]` is a genuine permutation of `range 1`. -/
theorem sample_row_claim_counterexample :
    sample_row [itemBlank] [0] ([] : Counts) 1 = none
    ∧ getCount ([] : Counts) itemBlank.product_name = 0
    ∧ itemBlank.is_lang_da = true
    ∧ ([0] : List Nat).Perm (List.range 1) := by
  refine ⟨by decide, by decide, by decide, by decide⟩

/-- Witness for `sample_row_characterization` at a concrete pool. -/
theorem sample_row_characterization_witness :
    sample_row [itemBlank] [0] ([] : Counts) 1 = none :=
  (sample_row_characterization [itemBlank] [0] [] 1 (by decide)).1.mpr
    (by decide)

end PerceptionMST

namespace PerceptionMST

/-! ### Counting infrastructure for the single-item pipeline -/

theorem enumFrom_countP_snd {α : Type} (q : α → Bool) :
    ∀ (l : List α) (k : Nat),
      (List.enumFrom k l).countP (fun p => q p.2) = l.countP q := by
  intro l
  induction l with
  | nil => intro k; rfl
  | cons a l ih =>
      intro k
      simp only [List.enumFrom, List.countP_cons, ih]

theorem enum_countP_snd {α : Type} (q : α → Bool) (l : List α) :
    l.enum.countP (fun p => q p.2) = l.countP q :=
  enumFrom_countP_snd q l 0

theorem filterMap_ite_sublist {α β : Type} (f : α → β) (p : α → Prop)
    [DecidablePred p] (l : List α) :
    (l.filterMap (fun x => if p x then some (f x) else none)).Sublist
      (l.map f) := by
  induction l with
  | nil => simp
  | cons a l ih =>
      by_cases h : p a
      · simpa [List.filterMap_cons, h] using ih.cons₂ (f a)
      · simpa [List.filterMap_cons, h] using ih.cons (f a)

theorem length_filterMap_ite {α β : Type} (f : α → β) (p : α → Prop)
    [DecidablePred p] (l : List α) :
    (l.filterMap (fun x => if p x then some (f x) else none)).length
      = l.countP (fun x => decide (p x)) := by
  induction l with
  | nil => rfl
  | cons a l ih =>
      by_cases h : p a <;> simp [List.filterMap_cons, h, List.countP_cons, ih]

theorem countP_enum_mem_index {α : Type} (l : List α) (S : List Nat)
    (hS : S.Nodup) (hlt : ∀ i ∈ S, i < l.length) :
    l.enum.countP (fun p => decide (p.1 ∈ S)) = S.length := by
  have h1 : l.enum.countP (fun p => decide (p.1 ∈ S))
      = (l.enum.map Prod.fst).countP (fun i => decide (i ∈ S)) := by
    rw [List.countP_map]; rfl
  rw [h1, List.enum_map_fst, List.countP_eq_length_filter]
  have hnd : ((List.range l.length).filter (fun i => decide (i ∈ S))).Nodup :=
    (List.nodup_range _).filter _
  have hmem : ∀ a,
      a ∈ (List.range l.length).filter (fun i => decide (i ∈ S)) ↔ a ∈ S := by
    intro a
    rw [List.mem_filter, List.mem_range]
    constructor
    · rintro ⟨-, h⟩; simpa using h
    · intro h; exact ⟨hlt a h, by simpa using h⟩
  exact ((List.perm_ext_iff_of_nodup hnd hS).mpr hmem).length_eq

theorem mem_posIdx {stim : List Row03a} {c : Nat × Nat} {i : Nat} :
    i ∈ posIdx stim c ↔ ∃ r, stim.get? i = some r ∧ cell03a r = c := by
  unfold posIdx
  simp only [List.mem_filterMap]
  constructor
  · rintro ⟨⟨j, r⟩, hmem, hif⟩
    by_cases h : cell03a r = c
    · simp only [h, if_pos, Option.some_inj] at hif
      subst hif
      exact ⟨r, List.mk_mem_enum_iff_get?.mp hmem, h⟩
    · simp [h] at hif
  · rintro ⟨r, hget, hc⟩
    exact ⟨(i, r), List.mk_mem_enum_iff_get?.mpr hget, by simp [hc]⟩

theorem posIdx_sublist_range (stim : List Row03a) (c : Nat × Nat) :
    (posIdx stim c).Sublist (List.range stim.length) := by
  have h := filterMap_ite_sublist (fun p : Nat × Row03a => p.1)
    (fun p : Nat × Row03a => cell03a p.2 = c) stim.enum
  rw [List.enum_map_fst] at h
  exact h

theorem posIdx_nodup (stim : List Row03a) (c : Nat × Nat) :
    (posIdx stim c).Nodup :=
  (posIdx_sublist_range stim c).nodup (List.nodup_range _)

theorem posIdx_lt (stim : List Row03a) (c : Nat × Nat) :
    ∀ i ∈ posIdx stim c, i < stim.length := by
  intro i hi
  exact List.mem_range.mp ((posIdx_sublist_range stim c).subset hi)

theorem posIdx_length (stim : List Row03a) (c : Nat × Nat) :
    (posIdx stim c).length = countRow03a stim c := by
  unfold posIdx countRow03a
  rw [length_filterMap_ite (fun p : Nat × Row03a => p.1)
    (fun p : Nat × Row03a => cell03a p.2 = c) stim.enum]
  rw [enum_countP_snd (fun r => decide (cell03a r = c)) stim,
    List.countP_eq_length_filter]

end PerceptionMST

namespace PerceptionMST

/-! ### Per-cell sampling lemmas for the single-item script -/

theorem sampleCell_cell (df : List Row03a) (rand : Rand03a) (i : Nat)
    (c : Nat × Nat) : ∀ r ∈ sampleCell df rand i c, cell03a r = c := by
  intro r hr
  have h1 : r ∈ applyPerm (rand.samplePerm i
      (df.filter (fun x => cell03a x = c)).length)
      (df.filter (fun x => cell03a x = c)) := List.take_subset _ _ hr
  have h2 := applyPerm_mem h1
  simpa using (List.mem_filter.mp h2).2

theorem max_balanced_le_available (df : List Row03a) :
    ∀ c ∈ all_cells, max_balanced_per_cell df ≤ available_per_cell df c := by
  intro c hc
  simp only [all_cells, List.mem_cons, List.mem_nil_iff, or_false] at hc
  rcases hc with rfl | rfl | rfl | rfl <;>
    · unfold max_balanced_per_cell; omega

theorem sampleCell_length (df : List Row03a) (rand : Rand03a)
    (hv : rand.Valid) (i : Nat) (c : Nat × Nat)
    (hav : n_per_cell ≤ available_per_cell df c) :
    (sampleCell df rand i c).length = n_per_cell := by
  unfold sampleCell
  have hsub : (df.filter (fun r => cell03a r = c)).length
      = available_per_cell df c := rfl
  have hlen := applyPerm_length (l := df.filter (fun r => cell03a r = c))
    (hv.1 i (df.filter (fun r => cell03a r = c)).length)
  rw [List.length_take, hlen, hsub, if_neg (by omega)]
  omega

theorem countRow03a_sampleCell_self (df : List Row03a) (rand : Rand03a)
    (i : Nat) (c : Nat × Nat) :
    countRow03a (sampleCell df rand i c) c = (sampleCell df rand i c).length := by
  unfold countRow03a
  rw [List.filter_eq_self.mpr]
  intro r hr
  simpa using sampleCell_cell df rand i c r hr

theorem countRow03a_sampleCell_other (df : List Row03a) (rand : Rand03a)
    (i : Nat) (c c' : Nat × Nat) (hne : c ≠ c') :
    countRow03a (sampleCell df rand i c) c' = 0 := by
  unfold countRow03a
  rw [List.filter_eq_nil.mpr, List.length_nil]
  intro r hr
  rw [sampleCell_cell df rand i c r hr]
  simpa using hne

theorem countRow03a_append (l1 l2 : List Row03a) (c : Nat × Nat) :
    countRow03a (l1 ++ l2) c = countRow03a l1 c + countRow03a l2 c := by
  unfold countRow03a
  rw [List.filter_append, List.length_append]

theorem countRow03a_stimConcat (df : List Row03a) (rand : Rand03a)
    (hv : rand.Valid) (hle : n_per_cell ≤ max_balanced_per_cell df) :
    ∀ c ∈ all_cells, countRow03a (stimConcat df rand) c = n_per_cell := by
  intro c hc
  have hav : ∀ c' ∈ all_cells, n_per_cell ≤ available_per_cell df c' :=
    fun c' hc' => hle.trans (max_balanced_le_available df c' hc')
  have l00 := sampleCell_length df rand hv 0 (0, 0) (hav (0, 0) (by decide))
  have l01 := sampleCell_length df rand hv 1 (0, 1) (hav (0, 1) (by decide))
  have l10 := sampleCell_length df rand hv 2 (1, 0) (hav (1, 0) (by decide))
  have l11 := sampleCell_length df rand hv 3 (1, 1) (hav (1, 1) (by decide))
  simp only [all_cells, List.mem_cons, List.mem_nil_iff, or_false] at hc
  unfold stimConcat
  rcases hc with rfl | rfl | rfl | rfl <;>
    rw [countRow03a_append, countRow03a_append, countRow03a_append] <;>
    [ (rw [countRow03a_sampleCell_self,
        countRow03a_sampleCell_other df rand 1 (0, 1) _ (by decide),
        countRow03a_sampleCell_other df rand 2 (1, 0) _ (by decide),
        countRow03a_sampleCell_other df rand 3 (1, 1) _ (by decide), l00]);
      (rw [countRow03a_sampleCell_self,
        countRow03a_sampleCell_other df rand 0 (0, 0) _ (by decide),
        countRow03a_sampleCell_other df rand 2 (1, 0) _ (by decide),
        countRow03a_sampleCell_other df rand 3 (1, 1) _ (by decide), l01]);
      (rw [countRow03a_sampleCell_self,
        countRow03a_sampleCell_other df rand 0 (0, 0) _ (by decide),
        countRow03a_sampleCell_other df rand 1 (0, 1) _ (by decide),
        countRow03a_sampleCell_other df rand 3 (1, 1) _ (by decide), l10]);
      (rw [countRow03a_sampleCell_self,
        countRow03a_sampleCell_other df rand 0 (0, 0) _ (by decide),
        countRow03a_sampleCell_other df rand 1 (0, 1) _ (by decide),
        countRow03a_sampleCell_other df rand 2 (1, 0) _ (by decide), l11]) ] <;>
    omega

theorem stimConcat_length (df : List Row03a) (rand : Rand03a)
    (hv : rand.Valid) (hle : n_per_cell ≤ max_balanced_per_cell df) :
    (stimConcat df rand).length = 4 * n_per_cell := by
  have hav : ∀ c' ∈ all_cells, n_per_cell ≤ available_per_cell df c' :=
    fun c' hc' => hle.trans (max_balanced_le_available df c' hc')
  have l00 := sampleCell_length df rand hv 0 (0, 0) (hav (0, 0) (by decide))
  have l01 := sampleCell_length df rand hv 1 (0, 1) (hav (0, 1) (by decide))
  have l10 := sampleCell_length df rand hv 2 (1, 0) (hav (1, 0) (by decide))
  have l11 := sampleCell_length df rand hv 3 (1, 1) (hav (1, 1) (by decide))
  unfold stimConcat
  rw [List.length_append, List.length_append, List.length_append,
    l00, l01, l10, l11]
  omega

end PerceptionMST

namespace PerceptionMST

/-! ### The single-item pipeline in the successful case -/

theorem applyNameOverride_fields (r : StimRow) :
    (applyNameOverride r).organic_badge = r.organic_badge
    ∧ (applyNameOverride r).eco_signal = r.eco_signal
    ∧ (applyNameOverride r).salience = r.salience
    ∧ (applyNameOverride r).item_id = r.item_id := by
  unfold applyNameOverride
  cases List.lookup r.item_id name_overrides_by_item_id <;> simp

theorem withSalience_length (df : List Row03a) (rand : Rand03a) :
    (withSalience df rand).length = (stimConcat df rand).length := by
  simp [withSalience]

theorem fillEmptySalience_length (rows : List StimRow) :
    (fillEmptySalience rows).length = rows.length := by
  simp [fillEmptySalience]

theorem countCellOut_map_preserve (g : StimRow → StimRow)
    (hg : ∀ r, ((g r).organic_badge, (g r).eco_signal)
      = (r.organic_badge, r.eco_signal))
    (l : List StimRow) (c : Nat × Nat) :
    countCellOut (l.map g) c = countCellOut l c := by
  unfold countCellOut
  rw [← List.countP_eq_length_filter, ← List.countP_eq_length_filter,
    List.countP_map]
  refine List.countP_congr ?_
  intro r _
  simp [Function.comp, hg r]

theorem countCellOut_enum_map (f : Nat × StimRow → StimRow)
    (hf : ∀ p, ((f p).organic_badge, (f p).eco_signal)
      = (p.2.organic_badge, p.2.eco_signal))
    (l : List StimRow) (c : Nat × Nat) :
    countCellOut (l.enum.map f) c = countCellOut l c := by
  unfold countCellOut
  rw [← List.countP_eq_length_filter, ← List.countP_eq_length_filter,
    List.countP_map,
    ← enum_countP_snd
      (fun r : StimRow => decide ((r.organic_badge, r.eco_signal) = c)) l]
  refine List.countP_congr ?_
  intro p _
  simp [Function.comp, hf p]

theorem countCellOut_perm {l1 l2 : List StimRow} (h : l1.Perm l2)
    (c : Nat × Nat) : countCellOut l1 c = countCellOut l2 c := by
  unfold countCellOut
  rw [← List.countP_eq_length_filter, ← List.countP_eq_length_filter]
  exact h.countP_eq _

theorem countCellOut_withSalience (df : List Row03a) (rand : Rand03a)
    (c : Nat × Nat) :
    countCellOut (withSalience df rand) c
      = countRow03a (stimConcat df rand) c := by
  unfold withSalience countCellOut countRow03a
  rw [← List.countP_eq_length_filter, ← List.countP_eq_length_filter,
    List.countP_map,
    ← enum_countP_snd (fun r : Row03a => decide (cell03a r = c))
      (stimConcat df rand)]
  refine List.countP_congr ?_
  intro p _
  simp [Function.comp, cell03a]

theorem countCellOut_fillEmpty (l : List StimRow) (c : Nat × Nat) :
    countCellOut (fillEmptySalience l) c = countCellOut l c := by
  unfold fillEmptySalience
  refine countCellOut_map_preserve _ ?_ l c
  intro r
  by_cases h : r.salience = "" <;> simp [h]

theorem map_item_id_out (l : List StimRow) :
    (((l.enum.map (fun p => { p.2 with item_id := p.1 + 1 })).map
      applyNameOverride).map (fun r => r.item_id)) = List.range' 1 l.length := by
  rw [List.map_map, List.map_map]
  have h1 : ∀ p ∈ l.enum,
      ((((fun r : StimRow => r.item_id) ∘ applyNameOverride) ∘
        (fun p : Nat × StimRow => { p.2 with item_id := p.1 + 1 })) p)
        = ((fun p : Nat × StimRow => p.1 + 1) p) := by
    intro p _
    simp only [Function.comp_apply]
    exact (applyNameOverride_fields _).2.2.2
  rw [List.map_congr_left h1]
  have h3 : l.enum.map (fun p : Nat × StimRow => p.1 + 1)
      = (l.enum.map Prod.fst).map (fun i => i + 1) := by
    rw [List.map_map]; rfl
  rw [h3, List.enum_map_fst, List.range'_eq_map_range]
  refine List.map_congr_left ?_
  intro i _
  omega

theorem buildStimulusSet_ok_spec (df : List Row03a) (rand : Rand03a)
    (hv : rand.Valid) (hle : n_per_cell ≤ max_balanced_per_cell df) :
    ∃ out, buildStimulusSet df rand = .ok out
      ∧ out.length = 4 * n_per_cell
      ∧ (∀ c ∈ all_cells, countCellOut out c = n_per_cell)
      ∧ out.map (fun r => r.item_id) = List.range' 1 out.length := by
  have hnot : ¬ n_per_cell > max_balanced_per_cell df := by omega
  have hlen : ((((applyPerm (rand.finalPerm
      (fillEmptySalience (withSalience df rand)).length)
      (fillEmptySalience (withSalience df rand))).enum.map
        (fun p => { p.2 with item_id := p.1 + 1 })).map
          applyNameOverride)).length = 4 * n_per_cell := by
    rw [List.length_map, List.length_map, List.enum_length,
      applyPerm_length (hv.2.2 (fillEmptySalience (withSalience df rand)).length),
      fillEmptySalience_length, withSalience_length]
    exact stimConcat_length df rand hv hle
  refine ⟨_, by unfold buildStimulusSet; rw [if_neg hnot], hlen, ?_, ?_⟩
  · intro c hc
    rw [countCellOut_map_preserve applyNameOverride
        (fun r => by
          rw [(applyNameOverride_fields r).1, (applyNameOverride_fields r).2.1]),
      countCellOut_enum_map (fun p => { p.2 with item_id := p.1 + 1 })
        (fun p => rfl),
      countCellOut_perm (applyPerm_perm
        (hv.2.2 (fillEmptySalience (withSalience df rand)).length)),
      countCellOut_fillEmpty, countCellOut_withSalience]
    exact countRow03a_stimConcat df rand hv hle c hc
  · rw [hlen]
    have h2 := map_item_id_out (applyPerm (rand.finalPerm
      (fillEmptySalience (withSalience df rand)).length)
      (fillEmptySalience (withSalience df rand)))
    rw [h2, applyPerm_length
        (hv.2.2 (fillEmptySalience (withSalience df rand)).length),
      fillEmptySalience_length, withSalience_length,
      stimConcat_length df rand hv hle]

end PerceptionMST

namespace PerceptionMST

theorem randId_valid : randId.Valid :=
  ⟨fun _ _ => List.Perm.refl _, fun _ _ => List.Perm.refl _,
    fun _ => List.Perm.refl _⟩

/-! ### C8: determinism / no implicit global randomness -/

/-- C8: the single-item constructor's randomness is a function of the
explicit seed alone: with the per-seed random source `prng seed` (the
model of `np.random.default_rng(seed)` and the seeded `DataFrame.sample`
calls), the output is invariant under the state of the implicit global
generator, so two independent runs with the same seed, input set and
parameters produce identical outputs. -/
theorem singleItem_deterministic :
    ∀ (prng : Nat → Rand03a) (seed : Nat) (df : List Row03a) (g g' : Nat),
      buildStimulusSetAmbient df (prng seed) g
        = buildStimulusSetAmbient df (prng seed) g' := by
  intro prng seed df g g'
  rfl

/-! ### C5: fatal configuration error on deficient cells -/

/-- C5: the single-item constructor raises the configuration error
`err03a` — whose text carries every cell's availability and the smallest
cell's count — exactly when the requested per-cell count `n_per_cell`
exceeds the smallest cell's availability; the error is produced before
any sampling (it does not depend on the random source); and on success
the request is never silently shrunk: each cell contributes exactly
`n_per_cell` rows. -/
theorem singleItem_config_error :
    ∀ (df : List Row03a) (rand : Rand03a), rand.Valid →
      ((buildStimulusSet df rand = .error (err03a df) ↔
          max_balanced_per_cell df < n_per_cell)
       ∧ (max_balanced_per_cell df < n_per_cell →
            ∀ rand' : Rand03a, buildStimulusSet df rand' = .error (err03a df))
       ∧ (∀ out, buildStimulusSet df rand = .ok out →
            ∀ c ∈ all_cells, countCellOut out c = n_per_cell)) := by
  intro df rand hv
  refine ⟨⟨?_, ?_⟩, ?_, ?_⟩
  · intro herr
    by_contra hlt
    push_neg at hlt
    obtain ⟨out, hok, -⟩ := buildStimulusSet_ok_spec df rand hv hlt
    rw [hok] at herr
    exact absurd herr (by simp)
  · intro hlt
    unfold buildStimulusSet
    rw [if_pos (by omega)]
  · intro hlt rand'
    unfold buildStimulusSet
    rw [if_pos (by omega)]
  · intro out hok c hc
    by_cases hlt : max_balanced_per_cell df < n_per_cell
    · unfold buildStimulusSet at hok
      rw [if_pos (by omega)] at hok
      exact absurd hok (by simp)
    · push_neg at hlt
      obtain ⟨out', hok', -, hcount, -⟩ :=
        buildStimulusSet_ok_spec df rand hv hlt
      rw [hok'] at hok
      rw [← Except.ok.inj hok]
      exact hcount c hc

/-- Witness for `singleItem_config_error`: the deficient input `df4` (one
item per cell) makes the constructor abort with the configuration
error. -/
theorem singleItem_config_error_witness :
    buildStimulusSet df4 randId = .error (err03a df4) :=
  ((singleItem_config_error df4 randId randId_valid).1).mpr (by decide)

/-! ### C1: per-cell sample size of the single-item constructor -/

/-- C1 counterexample to the claim as stated: with the configured
`target_total = 240` (so `floor(T/4) = 60`) and exactly 60 items
available in every cell, the constructor nevertheless samples only 40
items per cell and outputs 160 rows — the claimed 60 per cell and 240
rows are false. -/
theorem singleItem_claim_counterexample :
    (∀ c ∈ all_cells, available_per_cell df240 c = 60)
    ∧ target_total = 240
    ∧ target_total / 4 = 60
    ∧ (buildStimulusSet df240 randId).toOption.map List.length = some 160
    ∧ ((buildStimulusSet df240 randId).toOption.map
        (fun out => countCellOut out (0, 0))) = some 40
    ∧ (160 : Nat) ≠ target_total := by
  refine ⟨by decide, rfl, rfl, by decide, by decide, by decide⟩

/-- C1 (amended): the per-cell sample size of the single-item constructor
is the hard-coded `n_per_cell = target_per_cell * 2 = 40`, independent of
`target_total`; whenever `n_per_cell` does not exceed the smallest cell's
availability, exactly `n_per_cell` items are sampled from each of the 4
cells, `4 * n_per_cell = 160` rows are output, and `item_id`s run
`1..160` in final order. -/
theorem singleItem_per_cell_spec :
    ∀ (df : List Row03a) (rand : Rand03a), rand.Valid →
      n_per_cell ≤ max_balanced_per_cell df →
      ∃ out, buildStimulusSet df rand = .ok out
        ∧ out.length = 4 * n_per_cell
        ∧ (∀ c ∈ all_cells, countCellOut out c = n_per_cell)
        ∧ out.map (fun r => r.item_id) = List.range' 1 out.length :=
  buildStimulusSet_ok_spec

/-- Witness for `singleItem_per_cell_spec` at the 240-row input. -/
theorem singleItem_per_cell_spec_witness :
    n_per_cell ≤ max_balanced_per_cell df240
    ∧ ∃ out, buildStimulusSet df240 randId = .ok out
        ∧ out.length = 4 * n_per_cell
        ∧ (∀ c ∈ all_cells, countCellOut out c = n_per_cell)
        ∧ out.map (fun r => r.item_id) = List.range' 1 out.length :=
  ⟨by decide, singleItem_per_cell_spec df240 randId randId_valid (by decide)⟩

end PerceptionMST

namespace PerceptionMST

/-! ### Salience positions: partition and characterization -/

theorem lowPos_subset_posIdx (stim : List Row03a) (rand : Rand03a) (i : Nat)
    (c : Nat × Nat) : ∀ j ∈ lowPos stim rand i c, j ∈ posIdx stim c := by
  intro j hj
  exact applyPerm_mem (List.take_subset _ _ hj)

theorem highPos_subset_posIdx (stim : List Row03a) (rand : Rand03a) (i : Nat)
    (c : Nat × Nat) : ∀ j ∈ highPos stim rand i c, j ∈ posIdx stim c := by
  intro j hj
  exact applyPerm_mem (List.drop_subset _ _ hj)

theorem posIdx_unique {stim : List Row03a} {j : Nat} {c c' : Nat × Nat}
    (h : j ∈ posIdx stim c) (h' : j ∈ posIdx stim c') : c' = c := by
  obtain ⟨r, hget, hc⟩ := mem_posIdx.mp h
  obtain ⟨r', hget', hc'⟩ := mem_posIdx.mp h'
  rw [hget] at hget'
  rw [← hc, ← hc', Option.some_inj.mp hget']

theorem saliencePerm_perm (stim : List Row03a) (rand : Rand03a)
    (hv : rand.Valid) (i : Nat) (c : Nat × Nat) :
    (applyPerm (rand.saliencePerm i (posIdx stim c).length)
      (posIdx stim c)).Perm (posIdx stim c) :=
  applyPerm_perm (hv.2.1 i _)

theorem lowPos_length (stim : List Row03a) (rand : Rand03a)
    (hv : rand.Valid) (i : Nat) (c : Nat × Nat) :
    (lowPos stim rand i c).length = (posIdx stim c).length / 2 := by
  unfold lowPos
  rw [List.length_take, (saliencePerm_perm stim rand hv i c).length_eq]
  exact min_eq_left (Nat.div_le_self _ _)

theorem highPos_length (stim : List Row03a) (rand : Rand03a)
    (hv : rand.Valid) (i : Nat) (c : Nat × Nat) :
    (highPos stim rand i c).length
      = (posIdx stim c).length - (posIdx stim c).length / 2 := by
  unfold highPos
  rw [List.length_drop, (saliencePerm_perm stim rand hv i c).length_eq]

theorem low_high_cover (stim : List Row03a) (rand : Rand03a)
    (hv : rand.Valid) (i : Nat) (c : Nat × Nat) {j : Nat}
    (hj : j ∈ posIdx stim c) :
    j ∈ lowPos stim rand i c ∨ j ∈ highPos stim rand i c := by
  have hmem : j ∈ applyPerm (rand.saliencePerm i (posIdx stim c).length)
      (posIdx stim c) := (saliencePerm_perm stim rand hv i c).mem_iff.mpr hj
  rw [← List.take_append_drop ((posIdx stim c).length / 2)
    (applyPerm (rand.saliencePerm i (posIdx stim c).length) (posIdx stim c))]
    at hmem
  exact List.mem_append.mp hmem

theorem low_high_disjoint (stim : List Row03a) (rand : Rand03a)
    (hv : rand.Valid) (i : Nat) (c : Nat × Nat) {j : Nat}
    (hl : j ∈ lowPos stim rand i c) (hh : j ∈ highPos stim rand i c) :
    False := by
  have hnd : (applyPerm (rand.saliencePerm i (posIdx stim c).length)
      (posIdx stim c)).Nodup :=
    ((saliencePerm_perm stim rand hv i c).nodup_iff).mpr (posIdx_nodup stim c)
  exact (List.disjoint_take_drop hnd (le_refl _)) hl hh

theorem mem_allHighPos_iff {stim : List Row03a} {rand : Rand03a} {j : Nat} :
    j ∈ allHighPos stim rand
      ↔ ∃ p ∈ all_cells.enum, j ∈ highPos stim rand p.1 p.2 := by
  unfold allHighPos
  rw [List.mem_flatten]
  constructor
  · rintro ⟨l, hl, hj⟩
    obtain ⟨p, hp, rfl⟩ := List.mem_map.mp hl
    exact ⟨p, hp, hj⟩
  · rintro ⟨p, hp, hj⟩
    exact ⟨_, List.mem_map.mpr ⟨p, hp, rfl⟩, hj⟩

theorem mem_allLowPos_iff {stim : List Row03a} {rand : Rand03a} {j : Nat} :
    j ∈ allLowPos stim rand
      ↔ ∃ p ∈ all_cells.enum, j ∈ lowPos stim rand p.1 p.2 := by
  unfold allLowPos
  rw [List.mem_flatten]
  constructor
  · rintro ⟨l, hl, hj⟩
    obtain ⟨p, hp, rfl⟩ := List.mem_map.mp hl
    exact ⟨p, hp, hj⟩
  · rintro ⟨p, hp, hj⟩
    exact ⟨_, List.mem_map.mpr ⟨p, hp, rfl⟩, hj⟩

theorem mem_allHigh_iff_cell (stim : List Row03a) (rand : Rand03a) {j : Nat}
    (ci : Nat) (c : Nat × Nat)
    (huniq : ∀ p ∈ all_cells.enum, p.2 = c → p.1 = ci)
    (hcmem : (ci, c) ∈ all_cells.enum)
    (hj : j ∈ posIdx stim c) :
    (j ∈ allHighPos stim rand ↔ j ∈ highPos stim rand ci c) := by
  rw [mem_allHighPos_iff]
  constructor
  · rintro ⟨⟨pa, pb⟩, hp, hjh⟩
    have hc' : j ∈ posIdx stim pb :=
      highPos_subset_posIdx stim rand pa pb j hjh
    have hceq : pb = c := posIdx_unique hj hc'
    have hia : pa = ci := huniq (pa, pb) hp hceq
    rw [← hia, ← hceq]
    exact hjh
  · intro h
    exact ⟨(ci, c), hcmem, h⟩

theorem mem_allLow_iff_cell (stim : List Row03a) (rand : Rand03a) {j : Nat}
    (ci : Nat) (c : Nat × Nat)
    (huniq : ∀ p ∈ all_cells.enum, p.2 = c → p.1 = ci)
    (hcmem : (ci, c) ∈ all_cells.enum)
    (hj : j ∈ posIdx stim c) :
    (j ∈ allLowPos stim rand ↔ j ∈ lowPos stim rand ci c) := by
  rw [mem_allLowPos_iff]
  constructor
  · rintro ⟨⟨pa, pb⟩, hp, hjh⟩
    have hc' : j ∈ posIdx stim pb :=
      lowPos_subset_posIdx stim rand pa pb j hjh
    have hceq : pb = c := posIdx_unique hj hc'
    have hia : pa = ci := huniq (pa, pb) hp hceq
    rw [← hia, ← hceq]
    exact hjh
  · intro h
    exact ⟨(ci, c), hcmem, h⟩

theorem salienceAt_of_high (stim : List Row03a) (rand : Rand03a) {j : Nat}
    (ci : Nat) (c : Nat × Nat)
    (huniq : ∀ p ∈ all_cells.enum, p.2 = c → p.1 = ci)
    (hcmem : (ci, c) ∈ all_cells.enum)
    (hj : j ∈ posIdx stim c) (hh : j ∈ highPos stim rand ci c) :
    salienceAt stim rand j = "high" := by
  unfold salienceAt
  rw [if_pos ((mem_allHigh_iff_cell stim rand ci c huniq hcmem hj).mpr hh)]

theorem salienceAt_of_low (stim : List Row03a) (rand : Rand03a)
    (hv : rand.Valid) {j : Nat} (ci : Nat) (c : Nat × Nat)
    (huniq : ∀ p ∈ all_cells.enum, p.2 = c → p.1 = ci)
    (hcmem : (ci, c) ∈ all_cells.enum)
    (hj : j ∈ posIdx stim c) (hl : j ∈ lowPos stim rand ci c) :
    salienceAt stim rand j = "low" := by
  unfold salienceAt
  rw [if_neg, if_pos ((mem_allLow_iff_cell stim rand ci c huniq hcmem hj).mpr hl)]
  intro hhigh
  exact low_high_disjoint stim rand hv ci c hl
    ((mem_allHigh_iff_cell stim rand ci c huniq hcmem hj).mp hhigh)

end PerceptionMST

namespace PerceptionMST

/-! ### Salience counts in the constructed output -/

theorem countCellSal_map_preserve (g : StimRow → StimRow)
    (hg1 : ∀ r, (g r).organic_badge = r.organic_badge)
    (hg2 : ∀ r, (g r).eco_signal = r.eco_signal)
    (hg3 : ∀ r, (g r).salience = r.salience)
    (l : List StimRow) (c : Nat × Nat) (v : String) :
    countCellSal (l.map g) c v = countCellSal l c v := by
  unfold countCellSal
  rw [← List.countP_eq_length_filter, ← List.countP_eq_length_filter,
    List.countP_map]
  refine List.countP_congr ?_
  intro r _
  simp [Function.comp, hg1 r, hg2 r, hg3 r]

theorem countCellSal_enum_map (f : Nat × StimRow → StimRow)
    (hf1 : ∀ p, (f p).organic_badge = p.2.organic_badge)
    (hf2 : ∀ p, (f p).eco_signal = p.2.eco_signal)
    (hf3 : ∀ p, (f p).salience = p.2.salience)
    (l : List StimRow) (c : Nat × Nat) (v : String) :
    countCellSal (l.enum.map f) c v = countCellSal l c v := by
  unfold countCellSal
  rw [← List.countP_eq_length_filter, ← List.countP_eq_length_filter,
    List.countP_map,
    ← enum_countP_snd (fun r : StimRow =>
      decide ((r.organic_badge, r.eco_signal) = c) && decide (r.salience = v)) l]
  refine List.countP_congr ?_
  intro p _
  simp [Function.comp, hf1 p, hf2 p, hf3 p]

theorem countCellSal_perm {l1 l2 : List StimRow} (h : l1.Perm l2)
    (c : Nat × Nat) (v : String) :
    countCellSal l1 c v = countCellSal l2 c v := by
  unfold countCellSal
  rw [← List.countP_eq_length_filter, ← List.countP_eq_length_filter]
  exact h.countP_eq _

theorem countCellOut_out_eq (df : List Row03a) (rand : Rand03a)
    (hv : rand.Valid) (c : Nat × Nat) :
    countCellOut
      (((applyPerm (rand.finalPerm
          (fillEmptySalience (withSalience df rand)).length)
          (fillEmptySalience (withSalience df rand))).enum.map
            (fun p => { p.2 with item_id := p.1 + 1 })).map applyNameOverride)
      c = countRow03a (stimConcat df rand) c := by
  rw [countCellOut_map_preserve applyNameOverride
      (fun r => by
        rw [(applyNameOverride_fields r).1, (applyNameOverride_fields r).2.1]),
    countCellOut_enum_map (fun p => { p.2 with item_id := p.1 + 1 })
      (fun p => rfl),
    countCellOut_perm (applyPerm_perm
      (hv.2.2 (fillEmptySalience (withSalience df rand)).length)),
    countCellOut_fillEmpty, countCellOut_withSalience]

theorem countCellSal_out_eq (df : List Row03a) (rand : Rand03a)
    (hv : rand.Valid) (c : Nat × Nat) (v : String) :
    countCellSal
      (((applyPerm (rand.finalPerm
          (fillEmptySalience (withSalience df rand)).length)
          (fillEmptySalience (withSalience df rand))).enum.map
            (fun p => { p.2 with item_id := p.1 + 1 })).map applyNameOverride)
      c v
    = (stimConcat df rand).enum.countP
        (fun p => decide (cell03a p.2 = c)
          && decide ((if salienceAt (stimConcat df rand) rand p.1 = ""
              then "low" else salienceAt (stimConcat df rand) rand p.1) = v)) := by
  rw [countCellSal_map_preserve applyNameOverride
      (fun r => (applyNameOverride_fields r).1)
      (fun r => (applyNameOverride_fields r).2.1)
      (fun r => (applyNameOverride_fields r).2.2.1),
    countCellSal_enum_map (fun p => { p.2 with item_id := p.1 + 1 })
      (fun p => rfl) (fun p => rfl) (fun p => rfl),
    countCellSal_perm (applyPerm_perm
      (hv.2.2 (fillEmptySalience (withSalience df rand)).length))]
  unfold countCellSal fillEmptySalience withSalience
  rw [← List.countP_eq_length_filter, List.countP_map, List.countP_map]
  refine List.countP_congr ?_
  rintro ⟨i, r0⟩ _
  by_cases hs : salienceAt (stimConcat df rand) rand i = "" <;>
    simp [Function.comp, cell03a, hs]

theorem lowPos_nodup (stim : List Row03a) (rand : Rand03a) (hv : rand.Valid)
    (i : Nat) (c : Nat × Nat) : (lowPos stim rand i c).Nodup :=
  (List.take_sublist _ _).nodup
    (((saliencePerm_perm stim rand hv i c).nodup_iff).mpr (posIdx_nodup stim c))

theorem highPos_nodup (stim : List Row03a) (rand : Rand03a) (hv : rand.Valid)
    (i : Nat) (c : Nat × Nat) : (highPos stim rand i c).Nodup :=
  (List.drop_sublist _ _).nodup
    (((saliencePerm_perm stim rand hv i c).nodup_iff).mpr (posIdx_nodup stim c))

theorem countCellSal_value_low (df : List Row03a) (rand : Rand03a)
    (hv : rand.Valid) (ci : Nat) (c : Nat × Nat)
    (huniq : ∀ p ∈ all_cells.enum, p.2 = c → p.1 = ci)
    (hcmem : (ci, c) ∈ all_cells.enum) :
    (stimConcat df rand).enum.countP
        (fun p => decide (cell03a p.2 = c)
          && decide ((if salienceAt (stimConcat df rand) rand p.1 = ""
              then "low" else salienceAt (stimConcat df rand) rand p.1) = "low"))
      = countRow03a (stimConcat df rand) c / 2 := by
  set stim := stimConcat df rand with hstim
  have hpt : ∀ p ∈ stim.enum,
      ((fun p : Nat × Row03a => decide (cell03a p.2 = c)
          && decide ((if salienceAt stim rand p.1 = ""
              then "low" else salienceAt stim rand p.1) = "low")) p = true
        ↔ (fun p : Nat × Row03a => decide (p.1 ∈ lowPos stim rand ci c)) p
            = true) := by
    rintro ⟨i, r0⟩ hmem
    have hget : stim.get? i = some r0 := List.mk_mem_enum_iff_get?.mp hmem
    by_cases hcell : cell03a r0 = c
    · have hip : i ∈ posIdx stim c := mem_posIdx.mpr ⟨r0, hget, hcell⟩
      rcases low_high_cover stim rand hv ci c hip with hl | hh
      · have hsal := salienceAt_of_low stim rand hv ci c huniq hcmem hip hl
        simp [hcell, hsal, hl]
      · have hsal := salienceAt_of_high stim rand ci c huniq hcmem hip hh
        have hnl : i ∉ lowPos stim rand ci c := fun hl =>
          low_high_disjoint stim rand hv ci c hl hh
        simp [hcell, hsal, hnl]
    · have hnp : i ∉ lowPos stim rand ci c := by
        intro hl
        obtain ⟨r', hget', hc'⟩ :=
          mem_posIdx.mp (lowPos_subset_posIdx stim rand ci c i hl)
        rw [hget] at hget'
        rw [← Option.some_inj.mp hget'] at hc'
        exact hcell hc'
      simp [hcell, hnp]
  rw [List.countP_congr hpt,
    countP_enum_mem_index stim (lowPos stim rand ci c)
      (lowPos_nodup stim rand hv ci c)
      (fun j hj => posIdx_lt stim c j (lowPos_subset_posIdx stim rand ci c j hj)),
    lowPos_length stim rand hv ci c, posIdx_length]

theorem countCellSal_value_high (df : List Row03a) (rand : Rand03a)
    (hv : rand.Valid) (ci : Nat) (c : Nat × Nat)
    (huniq : ∀ p ∈ all_cells.enum, p.2 = c → p.1 = ci)
    (hcmem : (ci, c) ∈ all_cells.enum) :
    (stimConcat df rand).enum.countP
        (fun p => decide (cell03a p.2 = c)
          && decide ((if salienceAt (stimConcat df rand) rand p.1 = ""
              then "low" else salienceAt (stimConcat df rand) rand p.1) = "high"))
      = countRow03a (stimConcat df rand) c
        - countRow03a (stimConcat df rand) c / 2 := by
  set stim := stimConcat df rand with hstim
  have hpt : ∀ p ∈ stim.enum,
      ((fun p : Nat × Row03a => decide (cell03a p.2 = c)
          && decide ((if salienceAt stim rand p.1 = ""
              then "low" else salienceAt stim rand p.1) = "high")) p = true
        ↔ (fun p : Nat × Row03a => decide (p.1 ∈ highPos stim rand ci c)) p
            = true) := by
    rintro ⟨i, r0⟩ hmem
    have hget : stim.get? i = some r0 := List.mk_mem_enum_iff_get?.mp hmem
    by_cases hcell : cell03a r0 = c
    · have hip : i ∈ posIdx stim c := mem_posIdx.mpr ⟨r0, hget, hcell⟩
      rcases low_high_cover stim rand hv ci c hip with hl | hh
      · have hsal := salienceAt_of_low stim rand hv ci c huniq hcmem hip hl
        have hnh : i ∉ highPos stim rand ci c := fun hh =>
          low_high_disjoint stim rand hv ci c hl hh
        simp [hcell, hsal, hnh]
      · have hsal := salienceAt_of_high stim rand ci c huniq hcmem hip hh
        simp [hcell, hsal, hh]
    · have hnp : i ∉ highPos stim rand ci c := by
        intro hh
        obtain ⟨r', hget', hc'⟩ :=
          mem_posIdx.mp (highPos_subset_posIdx stim rand ci c i hh)
        rw [hget] at hget'
        rw [← Option.some_inj.mp hget'] at hc'
        exact hcell hc'
      simp [hcell, hnp]
  rw [List.countP_congr hpt,
    countP_enum_mem_index stim (highPos stim rand ci c)
      (highPos_nodup stim rand hv ci c)
      (fun j hj => posIdx_lt stim c j
        (highPos_subset_posIdx stim rand ci c j hj)),
    highPos_length stim rand hv ci c, posIdx_length]

end PerceptionMST

namespace PerceptionMST

/-! ### C6: salience assignment of the single-item constructor -/

/-- C6: after single-item construction every output row carries a salience
of `"low"` or `"high"` (no row is left unassigned), and within each of
the 4 cells the `"low"` count is the floor half of the cell's row count
while the remainder goes to `"high"` — so the two differ by at most 1. -/
theorem singleItem_salience_spec :
    ∀ (df : List Row03a) (rand : Rand03a), rand.Valid →
      ∀ out, buildStimulusSet df rand = .ok out →
        (∀ r ∈ out, r.salience = "low" ∨ r.salience = "high")
        ∧ (∀ c ∈ all_cells,
            countCellSal out c "low" = countCellOut out c / 2
            ∧ countCellSal out c "high"
              = countCellOut out c - countCellOut out c / 2) := by
  intro df rand hv out hok
  by_cases hdef : n_per_cell > max_balanced_per_cell df
  · unfold buildStimulusSet at hok
    rw [if_pos hdef] at hok
    exact absurd hok (by simp)
  · unfold buildStimulusSet at hok
    rw [if_neg hdef] at hok
    have hout := Except.ok.inj hok
    subst hout
    constructor
    · intro r hr
      obtain ⟨r1, hr1, rfl⟩ := List.mem_map.mp hr
      obtain ⟨⟨i, x⟩, hp, rfl⟩ := List.mem_map.mp hr1
      rw [(applyNameOverride_fields _).2.2.1]
      have hx : x ∈ applyPerm (rand.finalPerm
          (fillEmptySalience (withSalience df rand)).length)
          (fillEmptySalience (withSalience df rand)) :=
        List.get?_mem (List.mk_mem_enum_iff_get?.mp hp)
      have hx2 : x ∈ fillEmptySalience (withSalience df rand) :=
        applyPerm_mem hx
      unfold fillEmptySalience at hx2
      obtain ⟨w, hw, rfl⟩ := List.mem_map.mp hx2
      show (if w.salience = "" then { w with salience := "low" }
        else w).salience = "low" ∨ (if w.salience = ""
          then { w with salience := "low" } else w).salience = "high"
      by_cases hwe : w.salience = ""
      · rw [if_pos hwe]
        left
        rfl
      · rw [if_neg hwe]
        unfold withSalience at hw
        obtain ⟨q, hq, rfl⟩ := List.mem_map.mp hw
        revert hwe
        show ¬ salienceAt (stimConcat df rand) rand q.1 = "" →
          salienceAt (stimConcat df rand) rand q.1 = "low"
          ∨ salienceAt (stimConcat df rand) rand q.1 = "high"
        unfold salienceAt
        by_cases h1 : q.1 ∈ allHighPos (stimConcat df rand) rand
        · intro _
          right
          rw [if_pos h1]
        · by_cases h2 : q.1 ∈ allLowPos (stimConcat df rand) rand
          · intro _
            left
            rw [if_neg h1, if_pos h2]
          · intro hwe
            exact absurd (by rw [if_neg h1, if_neg h2]) hwe
    · intro c hc
      have hcout := countCellOut_out_eq df rand hv c
      have hslow := countCellSal_out_eq df rand hv c "low"
      have hshigh := countCellSal_out_eq df rand hv c "high"
      simp only [all_cells, List.mem_cons, List.mem_nil_iff, or_false] at hc
      rcases hc with rfl | rfl | rfl | rfl
      · exact ⟨by rw [hslow, hcout,
            countCellSal_value_low df rand hv 0 (0, 0) (by decide) (by decide)],
          by rw [hshigh, hcout,
            countCellSal_value_high df rand hv 0 (0, 0) (by decide) (by decide)]⟩
      · exact ⟨by rw [hslow, hcout,
            countCellSal_value_low df rand hv 1 (0, 1) (by decide) (by decide)],
          by rw [hshigh, hcout,
            countCellSal_value_high df rand hv 1 (0, 1) (by decide) (by decide)]⟩
      · exact ⟨by rw [hslow, hcout,
            countCellSal_value_low df rand hv 2 (1, 0) (by decide) (by decide)],
          by rw [hshigh, hcout,
            countCellSal_value_high df rand hv 2 (1, 0) (by decide) (by decide)]⟩
      · exact ⟨by rw [hslow, hcout,
            countCellSal_value_low df rand hv 3 (1, 1) (by decide) (by decide)],
          by rw [hshigh, hcout,
            countCellSal_value_high df rand hv 3 (1, 1) (by decide) (by decide)]⟩

/-- Witness for `singleItem_salience_spec` at the 240-row input. -/
theorem singleItem_salience_spec_witness :
    ∃ out, buildStimulusSet df240 randId = .ok out
      ∧ countCellSal out (0, 0) "low" = countCellOut out (0, 0) / 2 := by
  obtain ⟨out, hok, -⟩ :=
    buildStimulusSet_ok_spec df240 randId randId_valid (by decide)
  exact ⟨out, hok,
    ((singleItem_salience_spec df240 randId randId_valid out hok).2
      (0, 0) (by decide)).1⟩

end PerceptionMST


namespace PerceptionMST

/-! ### C9: round-robin block partitioning -/

theorem range'_filter_mod (B : Nat) (hB : 0 < B) (j : Nat) (hj : j < B) :
    ∀ n, ((List.range' 0 n).filter (fun i => i % B = j)).length
      = n / B + (if j < n % B then 1 else 0) := by
  intro n
  induction n with
  | zero =>
      simp [Nat.zero_div, Nat.zero_mod]
  | succ n ihn =>
      rw [List.range'_1_concat, List.filter_append, List.length_append, ihn]
      have h1 : n % B < B := Nat.mod_lt _ hB
      have hn : B * (n / B) + n % B = n := Nat.div_add_mod n B
      have hsing : (List.filter (fun i => decide (i % B = j)) [0 + n]).length
          = (if n % B = j then 1 else 0) := by
        by_cases hje : n % B = j <;> simp [List.filter, hje]
      rw [hsing]
      by_cases hfull : n % B + 1 = B
      · have e1 : (n + 1) / B = n / B + 1 := by
          have he : n + 1 = B * (n / B + 1) := by
            rw [Nat.mul_add, Nat.mul_one]
            omega
          rw [he, Nat.mul_div_cancel_left _ hB]
        have e2 : (n + 1) % B = 0 := by
          have he : n + 1 = B * (n / B + 1) := by
            rw [Nat.mul_add, Nat.mul_one]
            omega
          rw [he, Nat.mul_mod_right]
        rw [e1, e2]
        split_ifs <;> omega
      · have hlt : n % B + 1 < B := by omega
        have e1 : (n + 1) / B = n / B := by
          have h2 : n + 1 = B * (n / B) + (n % B + 1) := by omega
          rw [h2, Nat.mul_add_div hB, Nat.div_eq_of_lt hlt]
          omega
        have e2 : (n + 1) % B = n % B + 1 := by
          have h2 : n + 1 = B * (n / B) + (n % B + 1) := by omega
          rw [h2, Nat.mul_add_mod, Nat.mod_eq_of_lt hlt]
        rw [e1, e2]
        split_ifs <;> omega

theorem distribAux_length {α : Type} (B j : Nat) :
    ∀ (xs : List α) (k : Nat),
      (distribAux B j k xs).length
        = ((List.range' k xs.length).filter (fun i => i % B = j)).length := by
  intro xs
  induction xs with
  | nil => intro k; rfl
  | cons x xs ih =>
      intro k
      rw [show (x :: xs).length = xs.length + 1 from rfl, List.range'_succ,
        distribAux]
      by_cases h : k % B = j
      · rw [if_pos h, List.length_cons, ih (k + 1), List.filter_cons,
          if_pos (by simpa using h)]
        simp
      · rw [if_neg h, ih (k + 1), List.filter_cons,
          if_neg (by simpa using h)]

theorem distribAux_sublist {α : Type} (B j : Nat) :
    ∀ (xs : List α) (k : Nat), (distribAux B j k xs).Sublist xs := by
  intro xs
  induction xs with
  | nil => intro k; exact List.Sublist.refl _
  | cons x xs ih =>
      intro k
      rw [distribAux]
      by_cases h : k % B = j
      · rw [if_pos h]
        exact (ih (k + 1)).cons₂ x
      · rw [if_neg h]
        exact (ih (k + 1)).cons x

end PerceptionMST

namespace PerceptionMST

theorem countBCell_append (l1 l2 : List BItem) (c : Nat × Nat × String) :
    countBCell (l1 ++ l2) c = countBCell l1 c + countBCell l2 c := by
  unfold countBCell
  rw [List.filter_append, List.length_append]

theorem countBCell_flatten (L : List (List BItem)) (c : Nat × Nat × String) :
    countBCell L.flatten c = (L.map (fun l => countBCell l c)).sum := by
  induction L with
  | nil => rfl
  | cons l L ih =>
      rw [List.flatten_cons, countBCell_append, ih, List.map_cons,
        List.sum_cons]

theorem countBCell_perm {l1 l2 : List BItem} (h : l1.Perm l2)
    (c : Nat × Nat × String) : countBCell l1 c = countBCell l2 c := by
  unfold countBCell
  rw [← List.countP_eq_length_filter, ← List.countP_eq_length_filter]
  exact h.countP_eq _

theorem enumFrom_map_snd_fn {α β : Type} (h : α → β) :
    ∀ (l : List α) (k : Nat),
      (List.enumFrom k l).map (fun p => h p.2) = l.map h := by
  intro l
  induction l with
  | nil => intro k; rfl
  | cons a l ih =>
      intro k
      simp only [List.enumFrom, List.map_cons, ih]

theorem groupOf_bcell (df : List BItem) (cp : Nat × Nat × String) :
    ∀ it ∈ groupOf df cp, bcell it = cp := by
  intro it hit
  simpa using (List.mem_filter.mp hit).2

theorem countBCell_piece (df : List BItem) (B j : Nat)
    (gperm : Nat → Nat → List Nat)
    (hg : ∀ g n, (gperm g n).Perm (List.range n)) (g : Nat)
    (cp c : Nat × Nat × String) :
    countBCell (distribAux B j 0
        (applyPerm (gperm g (groupOf df cp).length) (groupOf df cp))) c
      = if cp = c
          then ((List.range' 0 (groupOf df cp).length).filter
            (fun i => i % B = j)).length
          else 0 := by
  have hmem : ∀ it ∈ distribAux B j 0
      (applyPerm (gperm g (groupOf df cp).length) (groupOf df cp)),
      bcell it = cp := by
    intro it hit
    have h1 := (distribAux_sublist B j _ 0).subset hit
    exact groupOf_bcell df cp it (applyPerm_mem h1)
  by_cases he : cp = c
  · rw [if_pos he]
    unfold countBCell
    rw [List.filter_eq_self.mpr (fun it hit => by
      simp [hmem it hit, he])]
    rw [distribAux_length, (applyPerm_perm (hg g _)).length_eq]
  · rw [if_neg he]
    unfold countBCell
    rw [List.filter_eq_nil.mpr, List.length_nil]
    intro it hit
    simp [hmem it hit, he]

theorem sum_map_ite_zero (c : Nat × Nat × String)
    (g : (Nat × Nat × String) → Nat) :
    ∀ (l : List (Nat × Nat × String)), c ∉ l →
      (l.map (fun x => if x = c then g x else 0)).sum = 0 := by
  intro l
  induction l with
  | nil => intro _; rfl
  | cons x l ih =>
      intro hc
      have hxc : ¬ x = c := fun he => hc (by rw [← he]; exact List.mem_cons_self x l)
      rw [List.map_cons, List.sum_cons, if_neg hxc,
        ih (fun hm => hc (List.mem_cons_of_mem x hm))]

theorem sum_map_single (c : Nat × Nat × String)
    (g : (Nat × Nat × String) → Nat) :
    ∀ (l : List (Nat × Nat × String)), l.Nodup → c ∈ l →
      (l.map (fun x => if x = c then g x else 0)).sum = g c := by
  intro l
  induction l with
  | nil => intro _ hc; exact absurd hc (List.not_mem_nil c)
  | cons x l ih =>
      intro hnd hc
      rw [List.map_cons, List.sum_cons]
      by_cases hx : x = c
      · rw [if_pos hx, ← hx,
          sum_map_ite_zero x g l (List.nodup_cons.mp hnd).1]
        rw [hx]
        omega
      · have hcl : c ∈ l :=
          (List.mem_cons.mp hc).resolve_left (fun he => hx he.symm)
        rw [if_neg hx, ih (List.nodup_cons.mp hnd).2 hcl]
        omega

theorem countBCell_blockRaw (df : List BItem) (B j : Nat)
    (cellOrder : List (Nat × Nat × String))
    (gperm : Nat → Nat → List Nat)
    (hg : ∀ g n, (gperm g n).Perm (List.range n))
    (hnd : cellOrder.Nodup) (c : Nat × Nat × String) (hc : c ∈ cellOrder) :
    countBCell (blockRaw df B cellOrder gperm j) c
      = ((List.range' 0 (groupOf df c).length).filter
          (fun i => i % B = j)).length := by
  unfold blockRaw
  rw [countBCell_flatten, List.map_map]
  have h1 : cellOrder.enum.map ((fun l => countBCell l c) ∘ (fun p =>
      distribAux B j 0
        (applyPerm (gperm p.1 (groupOf df p.2).length) (groupOf df p.2))))
      = cellOrder.enum.map (fun p => if p.2 = c
          then ((List.range' 0 (groupOf df p.2).length).filter
            (fun i => i % B = j)).length
          else 0) := by
    refine List.map_congr_left ?_
    intro p _
    exact countBCell_piece df B j gperm hg p.1 p.2 c
  rw [h1]
  have h2 := enumFrom_map_snd_fn (fun cp => if cp = c
      then ((List.range' 0 (groupOf df cp).length).filter
        (fun i => i % B = j)).length
      else 0) cellOrder 0
  rw [show cellOrder.enum = List.enumFrom 0 cellOrder from rfl, h2]
  exact sum_map_single c _ cellOrder hnd hc

end PerceptionMST

namespace PerceptionMST

theorem sum_map_const_nat {α : Type} (l : List α) (b : Nat) :
    (l.map (fun _ => b)).sum = l.length * b := by
  induction l with
  | nil => simp
  | cons x l ih =>
      rw [List.map_cons, List.sum_cons, ih, List.length_cons, Nat.succ_mul]
      omega

theorem build_blocks_getD (df : List BItem) (B : Nat)
    (cellOrder : List (Nat × Nat × String))
    (gperm bperm : Nat → Nat → List Nat) {j : Nat} (hj : j < B) :
    (build_blocks_from_items df B cellOrder gperm bperm).getD j []
      = applyPerm (bperm j (blockRaw df B cellOrder gperm j).length)
          (blockRaw df B cellOrder gperm j) := by
  unfold build_blocks_from_items
  have h1 : ((List.range B).map (fun j =>
      applyPerm (bperm j (blockRaw df B cellOrder gperm j).length)
        (blockRaw df B cellOrder gperm j))).get? j
      = some (applyPerm (bperm j (blockRaw df B cellOrder gperm j).length)
          (blockRaw df B cellOrder gperm j)) := by
    rw [List.get?_map, List.get?_range hj]
    rfl
  show (((List.range B).map _).get? j).getD [] = _
  rw [h1]
  rfl

theorem blockRaw_length (df : List BItem) (B : Nat)
    (cellOrder : List (Nat × Nat × String))
    (gperm : Nat → Nat → List Nat)
    (hg : ∀ g n, (gperm g n).Perm (List.range n)) (j : Nat) :
    (blockRaw df B cellOrder gperm j).length
      = (cellOrder.map (fun cp =>
          ((List.range' 0 (groupOf df cp).length).filter
            (fun i => i % B = j)).length)).sum := by
  unfold blockRaw
  rw [List.length_join, List.map_map]
  have h1 : cellOrder.enum.map (List.length ∘ (fun p =>
      distribAux B j 0
        (applyPerm (gperm p.1 (groupOf df p.2).length) (groupOf df p.2))))
      = cellOrder.enum.map (fun p =>
          ((List.range' 0 (groupOf df p.2).length).filter
            (fun i => i % B = j)).length) := by
    refine List.map_congr_left ?_
    intro p _
    show (distribAux B j 0
      (applyPerm (gperm p.1 (groupOf df p.2).length) (groupOf df p.2))).length
        = _
    rw [distribAux_length, (applyPerm_perm (hg p.1 _)).length_eq]
  rw [h1]
  rw [show cellOrder.enum = List.enumFrom 0 cellOrder from rfl,
    enumFrom_map_snd_fn (fun cp =>
      ((List.range' 0 (groupOf df cp).length).filter
        (fun i => i % B = j)).length) cellOrder 0]

/-- C9: the Block Partitioner deals each stratification cell's shuffled
members round-robin over the `B` blocks, so for every cell the number of
its items in any two blocks differs by at most 1; and when the items
stratify into exactly 4 cells of 40 items each and `B = 4`, every block
receives exactly 10 items of every cell and 40 items in total, each
block's contents independently shuffled. -/
theorem build_blocks_balanced :
    ∀ (df : List BItem) (B : Nat) (cellOrder : List (Nat × Nat × String))
      (gperm bperm : Nat → Nat → List Nat),
      0 < B →
      (∀ g n, (gperm g n).Perm (List.range n)) →
      (∀ b n, (bperm b n).Perm (List.range n)) →
      cellOrder.Nodup →
      (∀ it ∈ df, bcell it ∈ cellOrder) →
      ((∀ c ∈ cellOrder, ∀ j1 j2, j1 < B → j2 < B →
          countBCell ((build_blocks_from_items df B cellOrder gperm
            bperm).getD j1 []) c
            ≤ countBCell ((build_blocks_from_items df B cellOrder gperm
                bperm).getD j2 []) c + 1)
       ∧ (B = 4 → (∀ c ∈ cellOrder, (groupOf df c).length = 40) →
           cellOrder.length = 4 →
           ∀ j, j < 4 → ∀ c ∈ cellOrder,
             countBCell ((build_blocks_from_items df B cellOrder gperm
               bperm).getD j []) c = 10
             ∧ ((build_blocks_from_items df B cellOrder gperm
                 bperm).getD j []).length = 40)) := by
  intro df B cellOrder gperm bperm hB hg hb hnd _hcov
  constructor
  · intro c hc j1 j2 hj1 hj2
    rw [build_blocks_getD df B cellOrder gperm bperm hj1,
      build_blocks_getD df B cellOrder gperm bperm hj2,
      countBCell_perm (applyPerm_perm (hb j1 _)),
      countBCell_perm (applyPerm_perm (hb j2 _)),
      countBCell_blockRaw df B j1 cellOrder gperm hg hnd c hc,
      countBCell_blockRaw df B j2 cellOrder gperm hg hnd c hc,
      range'_filter_mod B hB j1 hj1, range'_filter_mod B hB j2 hj2]
    split_ifs <;> omega
  · intro hB4 hsize hlen j hj c hc
    subst hB4
    constructor
    · rw [build_blocks_getD df 4 cellOrder gperm bperm hj,
        countBCell_perm (applyPerm_perm (hb j _)),
        countBCell_blockRaw df 4 j cellOrder gperm hg hnd c hc,
        hsize c hc, range'_filter_mod 4 (by omega) j hj 40]
      norm_num
    · rw [build_blocks_getD df 4 cellOrder gperm bperm hj,
        applyPerm_length (hb j _),
        blockRaw_length df 4 cellOrder gperm hg j]
      have h1 : cellOrder.map (fun cp =>
          ((List.range' 0 (groupOf df cp).length).filter
            (fun i => i % 4 = j)).length)
          = cellOrder.map (fun _ => 10) := by
        refine List.map_congr_left ?_
        intro cp hcp
        rw [hsize cp hcp, range'_filter_mod 4 (by omega) j hj 40]
        norm_num
      rw [h1, sum_map_const_nat, hlen]

/-- Witness for `build_blocks_balanced`: 160 items in 4 stratification
cells of 40 each, dealt into 4 blocks. -/
theorem build_blocks_balanced_witness :
    countBCell ((build_blocks_from_items dfBlocks 4 blockCells gpermId
      gpermId).getD 0 []) (0, 0, "low") = 10
    ∧ ((build_blocks_from_items dfBlocks 4 blockCells gpermId
        gpermId).getD 0 []).length = 40 :=
  (build_blocks_balanced dfBlocks 4 blockCells gpermId gpermId
    (by decide) (fun _ _ => List.Perm.refl _) (fun _ _ => List.Perm.refl _)
    (by decide) (by decide)).2 rfl (by decide) (by decide) 0 (by decide)
    (0, 0, "low") (by decide)

end PerceptionMST

namespace PerceptionMST

/-! ### C3 and C4: the trial-construction loop crashes before any sampling

`rng.permutation(cells)` at `functions.py` line 349 promotes the mixed
`(int, int, str)` cell tuples to a numpy string array, so the loop
variables come back string-typed and the dict access
`cell_targets[(c, l, s)]` at line 350 raises `KeyError` on the first
iteration of every call. -/

theorem bumpTarget_keys (ct : List ((PyVal × PyVal × PyVal) × Nat))
    (key : PyVal × PyVal × PyVal) :
    (bumpTarget ct key).map Prod.fst = ct.map Prod.fst := by
  unfold bumpTarget
  rw [List.map_map]
  apply List.map_congr_left
  intro p _
  by_cases h : p.1 == key <;> simp [Function.comp, h]

theorem foldl_bumpTarget_keys (l : List Nat)
    (ct : List ((PyVal × PyVal × PyVal) × Nat)) :
    ((l.foldl (fun ct2 idx =>
        bumpTarget ct2
          (cellsPy.getD idx (PyVal.pint 0, PyVal.pint 0, PyVal.pstr "low")))
      ct).map Prod.fst) = ct.map Prod.fst := by
  induction l generalizing ct with
  | nil => rfl
  | cons a as ih => rw [List.foldl_cons, ih, bumpTarget_keys]

/-- The keys of `cell_targets` are exactly the typed cell tuples. -/
theorem mkCellTargets_keys (n : Nat) (rs : Rs) :
    (mkCellTargets n rs).map Prod.fst = cellsPy := by
  unfold mkCellTargets
  rw [foldl_bumpTarget_keys, List.map_map]
  rfl

/-- No string-coerced cell equals any typed cell tuple (Python compares
tuple components with `int` never equal to `str`). -/
theorem coerced_key_not_found :
    ∀ x ∈ cellsPy, ∀ y ∈ cellsPy, (x == npCellStr y) = false := by decide

/-- The loop-variable tuples of line 350 miss the `cell_targets` dict. -/
theorem lookupCT_coerced_none (n : Nat) (rs : Rs)
    {cell : PyVal × PyVal × PyVal} (h : cell ∈ cellsPy.map npCellStr) :
    lookupCT (mkCellTargets n rs) cell = none := by
  unfold lookupCT
  rw [Option.map_eq_none']
  rw [List.find?_eq_none]
  intro p hp hbeq
  have hk : p.1 ∈ cellsPy := by
    rw [← mkCellTargets_keys n rs]
    exact List.mem_map_of_mem Prod.fst hp
  rcases List.mem_map.mp h with ⟨y, hy, hcell⟩
  subst hcell
  have hfalse := coerced_key_not_found p.1 hk y hy
  rw [hbeq] at hfalse
  exact Bool.noConfusion hfalse

/-- On any genuine permutation of the 8 cells, `build_trials_flat` raises
`KeyError` at the first loop iteration: the error key is one of the
string-coerced cells. -/
theorem build_trials_flat_error (n : Nat) (pbc : List (String × CellPools))
    (gp : CellPools) (rs : Rs) (m : Nat)
    (hperm : (rs 1 8).Perm (List.range 8)) :
    ∃ cell, cell ∈ cellsPy.map npCellStr ∧
      build_trials_flat n pbc gp rs m = .error cell := by
  have hperm2 : (rs 1 8).Perm (List.range (cellsPy.map npCellStr).length) :=
    hperm
  have hlen : (applyPerm (rs 1 8) (cellsPy.map npCellStr)).length = 8 := by
    rw [applyPerm_length hperm2]
    rfl
  rcases ho : applyPerm (rs 1 8) (cellsPy.map npCellStr) with _ | ⟨c0, rest⟩
  · rw [ho] at hlen
    exact absurd hlen (by decide)
  · have hc0 : c0 ∈ cellsPy.map npCellStr := by
      have hmem : c0 ∈ applyPerm (rs 1 8) (cellsPy.map npCellStr) := by
        rw [ho]
        exact List.mem_cons_self c0 rest
      exact applyPerm_mem hmem
    refine ⟨c0, hc0, ?_⟩
    unfold build_trials_flat
    rw [ho]
    unfold runCells
    rw [lookupCT_coerced_none n rs hc0]

/-- C3: code_bug.  The claim's repetition cap quantifies over the trial
sets `build_trials_flat` constructs, but the function never constructs
one: `rng.permutation(cells)` (`functions.py` line 349) string-coerces the
cell tuples, the dict access `cell_targets[(c, l, s)]` (line 350) raises
`KeyError` on the first loop iteration of every call — before any
sampling and before any name count is touched — so no run ever returns a
trial set for the cap to hold of. -/
theorem trials_cap_never_constructed :
    ∀ (n : Nat) (pbc : List (String × CellPools)) (gp : CellPools)
      (rs : Rs) (m : Nat), (rs 1 8).Perm (List.range 8) →
      ∀ out : List Trial × Nat × Counts,
        build_trials_flat n pbc gp rs m ≠ .ok out := by
  intro n pbc gp rs m hperm out hok
  rcases build_trials_flat_error n pbc gp rs m hperm with ⟨cell, _, herr⟩
  rw [hok] at herr
  exact Except.noConfusion herr

/-- Witness for `trials_cap_never_constructed`: well-stocked global pools,
identity randomness, cap 5, forty requested trials — still no trial set. -/
theorem trials_cap_never_constructed_witness :
    (rsId 1 8).Perm (List.range 8) ∧
    ∀ out : List Trial × Nat × Counts,
      build_trials_flat 40 noCats goodPools rsId 5 ≠ .ok out :=
  ⟨List.Perm.refl (List.range 8),
    trials_cap_never_constructed 40 noCats goodPools rsId 5
      (List.Perm.refl (List.range 8))⟩

/-- Concrete demonstration for C3: at the identity random source the call
produces no trial set at all. -/
theorem trials_no_set_demo :
    (build_trials_flat 40 noCats goodPools rsId 5).toOption = none := rfl

/-- C4: code_bug.  The claim says the constructor never raises, retries a
failed slot up to 15 times, abandons it, and reports the shortfall; the
source instead raises `KeyError` unconditionally: the loop at
`functions.py` line 349 iterates the string-coerced cells, every one of
which is missing from the `(int, int, str)`-keyed `cell_targets` dict, so
line 350 raises on the first iteration of every call and neither the
retry loop, nor the abandonment `break`, nor the shortfall report of line
387 is ever reached. -/
theorem build_trials_always_keyerror :
    ∀ (n : Nat) (pbc : List (String × CellPools)) (gp : CellPools)
      (rs : Rs) (m : Nat), (rs 1 8).Perm (List.range 8) →
      ∃ cell, cell ∈ cellsPy.map npCellStr ∧
        build_trials_flat n pbc gp rs m = .error cell :=
  fun n pbc gp rs m hperm => build_trials_flat_error n pbc gp rs m hperm

/-- Witness for `build_trials_always_keyerror` at a concrete input. -/
theorem build_trials_always_keyerror_witness :
    (rsId 1 8).Perm (List.range 8) ∧
    ∃ cell, cell ∈ cellsPy.map npCellStr ∧
      build_trials_flat 16 noCats goodPools rsId 5 = .error cell :=
  ⟨List.Perm.refl (List.range 8),
    build_trials_always_keyerror 16 noCats goodPools rsId 5
      (List.Perm.refl (List.range 8))⟩

/-- Concrete demonstration for C4: the `KeyError` key is the string-coerced
first cell in processing order, `("0", "0", "low")`. -/
theorem build_trials_keyerror_demo :
    build_trials_flat 16 noCats goodPools rsId 5
      = Except.error (PyVal.pstr "0", PyVal.pstr "0", PyVal.pstr "low") := rfl

end PerceptionMST
